import Mathlib

/-!
Verification development for the astro-sweph WebAssembly binding
(src/lib/src/astro.c).  The C source is shallowly embedded: pure string
formatting becomes Lean functions on `String`/`List Char`, C `double`
arithmetic is modelled over `ℚ` (every operation used by the source -
addition, division, `fmod`, truncating casts - is exact on the inputs we
reason about), C `int`/`long` become `ℤ`, and the external Swiss
Ephemeris engine (swe_calc_ut, swe_nod_aps, swe_julday, ...) is an
explicit oracle record passed to each operation, since its code is not
part of this repository.
-/

set_option maxRecDepth 20000

/- The core rational operations are marked irreducible, which blocks
`decide` on concrete rational computations; restore the default
reducibility so the closed evaluations below go through. -/
set_option allowUnsafeReducibility true in
attribute [semireducible] Rat.mul Rat.add Rat.sub Rat.div Rat.blt Rat.inv Rat.neg

namespace Astro

/-! ### Formatting constants (astro.c lines 110-127) and the zodiac table -/

def BIT_ROUND_SEC : Nat := 1

def BIT_ROUND_MIN : Nat := 2

def BIT_ZODIAC : Nat := 4

/-- From the external header swephexp.h: SEFLG_EQUATORIAL = 2048. -/
def SEFLG_EQUATORIAL : Nat := 2048

/-- From the external header swephexp.h: SEFLG_SWIEPH = 2. -/
def SEFLG_SWIEPH : Nat := 2

/-- From the external header swephexp.h: SE_AST_OFFSET = 10000. -/
def SE_AST_OFFSET : Int := 10000

def SE_SUN : Int := 0

def SE_PLUTO : Int := 9

def SE_EARTH : Int := 14

def SE_NPLANETS : Int := 23

/-- The twelve-entry sign-abbreviation table (astro.c lines 132-135). -/
def zodiac_signs : List String :=
  ["ar", "ta", "ge", "cn", "le", "vi", "li", "sc", "sa", "cp", "aq", "pi"]

/-! ### Decimal rendering primitives (models of printf conversions) -/

/-- Decimal digits of a natural number, most significant first; the fuel
argument mirrors the bounded loop of the C library digit conversion and is
always sufficient at `n + 1`. -/
def natDigitsAux : Nat → Nat → List Char → List Char
  | 0, _, acc => acc
  | fuel + 1, n, acc =>
    let d := Char.ofNat (48 + n % 10)
    if n < 10 then d :: acc else natDigitsAux fuel (n / 10) (d :: acc)

/-- printf %u rendering of a natural number. -/
def natDec (n : Nat) : String := String.mk (natDigitsAux (n + 1) n [])

/-- printf %d / %ld rendering of an integer. -/
def intDec (i : Int) : String :=
  if i < 0 then "-" ++ natDec (-i).toNat else natDec i.toNat

/-- printf "%2d"/"%3d": decimal rendering left-padded with spaces. -/
def padNum (width : Nat) (i : Int) : String :=
  let s := intDec i
  if s.length < width then
    String.mk (List.replicate (width - s.length) (Char.ofNat 32)) ++ s
  else s

/-- printf "%04d"/"%06d": decimal rendering left-padded with zeros (every
use site passes a nonnegative value). -/
def pad0 (width : Nat) (i : Int) : String :=
  let s := intDec i
  if s.length < width then
    String.mk (List.replicate (width - s.length) (Char.ofNat 48)) ++ s
  else s

/-- C cast `(int)q`: truncation toward zero. -/
def ctrunc (q : ℚ) : ℤ := if 0 ≤ q then ⌊q⌋ else -⌊-q⌋

/-- printf "%f"/"%.6f"/"%.9f": fixed-point rendering with the given number
of decimals, rounding half away from zero (the binary double rounding of
the C library agrees with this on every concrete value used below). -/
def formatFixed (decimals : Nat) (q : ℚ) : String :=
  let sgn : String := if q < 0 then "-" else ""
  let scaled : ℤ := ⌊|q| * (10 : ℚ) ^ decimals + 1 / 2⌋
  let base : ℤ := (10 : ℤ) ^ decimals
  sgn ++ intDec (scaled / base) ++ "." ++ pad0 decimals (scaled % base)

/-- The apostrophe character used by the DMS format strings. -/
def apos : String := String.mk [Char.ofNat 39]

/-! ### format_degrees (astro.c lines 217-274) -/

/-- Modelled from the spec: `swe_degnorm` of the external Swiss Ephemeris
library (not part of this repository) reduces an angle modulo 360 into
the interval [0, 360). -/
def swe_degnorm (x : ℚ) : ℚ := x - 360 * ⌊x / 360⌋

/-- The value format_degrees works on after the fabs/normalize/rounding
steps (astro.c lines 224-229). -/
def fd_adjusted (degrees : ℚ) (format_flags : Nat) : ℚ :=
  let d0 := swe_degnorm |degrees|
  let d1 := if format_flags &&& BIT_ROUND_MIN ≠ 0 then d0 + 1 / 120 else d0
  if format_flags &&& BIT_ROUND_SEC ≠ 0 then d1 + 1 / 7200 else d1

/-- The zodiac-sign index computed at astro.c line 233:
`int zodiac_index = (int)(degrees / 30.0)`. -/
def zodiac_index_of (degrees : ℚ) (format_flags : Nat) : ℤ :=
  ctrunc (fd_adjusted degrees format_flags / 30)

/-- Position of the first decimal digit, as found by
`strpbrk(result, "0123456789")` at astro.c line 267. -/
def firstDigitIdx : List Char → Option Nat
  | [] => none
  | c :: cs => if c.isDigit then some 0 else (firstDigitIdx cs).map (· + 1)

/-- In-place update of one character, modelling the minus-sign write
through `first_digit - 1` at astro.c line 269. -/
def setAt : List Char → Nat → Char → List Char
  | [], _, _ => []
  | _ :: cs, 0, ch => ch :: cs
  | c :: cs, n + 1, ch => c :: setAt cs n ch

/-- The sign-reapplication step of format_degrees (astro.c lines 266-271):
when the input was negative, the character right before the first digit is
overwritten with a minus sign, but only when such a digit exists and is
not at position 0. -/
def applyNegSign (sign : ℤ) (s : List Char) : List Char :=
  if sign < 0 then
    match firstDigitIdx s with
    | some (i + 1) => setAt s i (Char.ofNat 45)
    | _ => s
  else s

/-- The zodiac-branch string of format_degrees before sign reapplication
(astro.c lines 232-247); `x` is the in-sign remainder `fmod(degrees, 30.0)`
and `zs` the selected sign abbreviation. -/
def zodiacCore (format_flags : Nat) (zs : String) (x : ℚ) : String :=
  let deg := ctrunc x
  let mn := ctrunc ((x - deg) * 60)
  let sec := ctrunc (((x - deg) * 60 - mn) * 60)
  if format_flags &&& BIT_ROUND_MIN ≠ 0 then
    padNum 2 deg ++ " " ++ zs ++ " " ++ padNum 2 mn
  else if format_flags &&& BIT_ROUND_SEC ≠ 0 then
    padNum 2 deg ++ " " ++ zs ++ " " ++ padNum 2 mn ++ apos ++ padNum 2 sec
  else
    let frac := ctrunc ((((x - deg) * 60 - mn) * 60 - sec) * 10000)
    padNum 2 deg ++ " " ++ zs ++ " " ++ padNum 2 mn ++ apos ++ padNum 2 sec
      ++ "." ++ pad0 4 frac

/-- The plain-format string of format_degrees before sign reapplication
(astro.c lines 248-263); `x` is the normalized/rounded degree value. -/
def plainCore (format_flags : Nat) (symbol : String) (x : ℚ) : String :=
  let deg := ctrunc x
  let mn := ctrunc ((x - deg) * 60)
  let sec := ctrunc (((x - deg) * 60 - mn) * 60)
  if format_flags &&& BIT_ROUND_MIN ≠ 0 then
    padNum 3 deg ++ symbol ++ padNum 2 mn ++ apos
  else if format_flags &&& BIT_ROUND_SEC ≠ 0 then
    padNum 3 deg ++ symbol ++ padNum 2 mn ++ apos ++ padNum 2 sec
  else
    let frac := ctrunc ((((x - deg) * 60 - mn) * 60 - sec) * 10000)
    padNum 3 deg ++ symbol ++ padNum 2 mn ++ apos ++ padNum 2 sec
      ++ "." ++ pad0 4 frac

/-- format_degrees (astro.c lines 217-274).  Returns `none` exactly when
the zodiac branch computes a sign index outside the twelve-entry
`zodiac_signs` table, which in the C source is an out-of-bounds array
read (undefined behaviour). -/
def format_degrees (degrees : ℚ) (format_flags : Nat) : Option String :=
  let symbol : String := if format_flags &&& SEFLG_EQUATORIAL ≠ 0 then "h" else "d"
  let sign : ℤ := if degrees < 0 then -1 else 1
  let d := fd_adjusted degrees format_flags
  if format_flags &&& BIT_ZODIAC ≠ 0 then
    let zi := ctrunc (d / 30)
    if h : 0 ≤ zi ∧ zi.toNat < zodiac_signs.length then
      some (String.mk (applyNegSign sign
        (zodiacCore format_flags (zodiac_signs.get ⟨zi.toNat, h.2⟩)
          (d - 30 * (zi : ℚ))).data))
    else none
  else
    some (String.mk (applyNegSign sign (plainCore format_flags symbol d).data))

/-! ### escape_json_string (astro.c lines 143-201) -/

/-- size_t subtraction, with the 64-bit wraparound of the C source. -/
def usub (a b : Nat) : Nat := (a + (2 ^ 64 - b)) % 2 ^ 64

/-- The escape sequence (or replacement) the switch statement at astro.c
lines 159-197 produces for one source character.  A char that is neither
one of the seven specially escaped characters nor a control character
(codepoint below 32) is copied unchanged; in the C source bytes at or
above 128 take the same copy branch because plain `char` is signed. -/
def escChar (c : Char) : List Char :=
  if c = Char.ofNat 34 then [Char.ofNat 92, Char.ofNat 34]
  else if c = Char.ofNat 92 then [Char.ofNat 92, Char.ofNat 92]
  else if c = Char.ofNat 10 then [Char.ofNat 92, Char.ofNat 110]
  else if c = Char.ofNat 13 then [Char.ofNat 92, Char.ofNat 114]
  else if c = Char.ofNat 9 then [Char.ofNat 92, Char.ofNat 116]
  else if c = Char.ofNat 8 then [Char.ofNat 92, Char.ofNat 98]
  else if c = Char.ofNat 12 then [Char.ofNat 92, Char.ofNat 102]
  else if c.toNat < 32 then [Char.ofNat 32]
  else [c]

/-- The copying loop of escape_json_string: before each source character
the loop condition `dest_idx < dest_size - 1` is checked, then the body
breaks when `dest_idx >= dest_size - 3`. -/
def escapeLoop (destSize : Nat) : List Char → Nat → List Char
  | [], _ => []
  | c :: rest, destIdx =>
    if destIdx < usub destSize 1 then
      if destIdx ≥ usub destSize 3 then []
      else
        let e := escChar c
        e ++ escapeLoop destSize rest (destIdx + e.length)
    else []

/-- escape_json_string (astro.c lines 143-201); `destSize` is the size of
the destination buffer (an empty result when it is below 2). -/
def escape_json_string (src : String) (destSize : Nat) : String :=
  if destSize < 2 then "" else String.mk (escapeLoop destSize src.data 0)

/-! ### convert_coordinates (astro.c lines 288-294) -/

/-- convert_coordinates: decimal degrees from degree/minute/second plus a
hemisphere letter. -/
def convert_coordinates (deg mn sec : ℤ) (direction : Char) : ℚ :=
  let r : ℚ := (deg : ℚ) + (mn : ℚ) / 60 + (sec : ℚ) / 3600
  if direction = Char.ofNat 87 ∨ direction = Char.ofNat 83 then -r else r

/-! ### atoi and strtok, as used by getSpecificAsteroids (lines 744-758) -/

/-- C `isspace` characters in the default locale. -/
def isCSpace (c : Char) : Bool :=
  c = Char.ofNat 32 ∨ c = Char.ofNat 9 ∨ c = Char.ofNat 10 ∨
  c = Char.ofNat 11 ∨ c = Char.ofNat 12 ∨ c = Char.ofNat 13

/-- Accumulate the leading run of decimal digits. -/
def digitsVal : List Char → Int → Int
  | [], acc => acc
  | c :: cs, acc =>
    if c.isDigit then digitsVal cs (acc * 10 + ((c.toNat : Int) - 48)) else acc

/-- C `atoi`: skip whitespace, optional sign, leading digit run; a string
with no digit prefix converts to 0. -/
def atoiChars : List Char → Int
  | [] => 0
  | c :: cs =>
    if isCSpace c then atoiChars cs
    else if c = Char.ofNat 45 then -(digitsVal cs 0)
    else if c = Char.ofNat 43 then digitsVal cs 0
    else digitsVal (c :: cs) 0

def atoi (s : String) : Int := atoiChars s.data

/-- Split a character list at commas; `acc` holds the current token in
reverse. -/
def splitCommaAux : List Char → List Char → List String
  | [], acc => [String.mk acc.reverse]
  | c :: cs, acc =>
    if c = Char.ofNat 44 then String.mk acc.reverse :: splitCommaAux cs []
    else splitCommaAux cs (c :: acc)

/-- The token sequence produced by `strtok(list_copy, ",")`: maximal runs
between commas, with empty tokens skipped. -/
def strtokTokens (s : String) : List String :=
  (splitCommaAux s.data []).filter (· ≠ "")

/-- The parsing loop of getSpecificAsteroids (astro.c lines 751-758):
tokens are converted with atoi, values outside 1..1000 are discarded, and
tokenizing stops once 1000 values have been accepted. -/
def parseAsteroidLoop : List String → Nat → List Int
  | [], _ => []
  | t :: rest, cnt =>
    if cnt < 1000 then
      let n := atoi t
      if 0 < n ∧ n ≤ 1000 then n :: parseAsteroidLoop rest (cnt + 1)
      else parseAsteroidLoop rest cnt
    else []

/-! ### The external-engine oracle -/

/-- Four doubles, the `x[0..3]` slots of a swe_calc_ut position. -/
structure Vec4 where
  x0 : ℚ
  x1 : ℚ
  x2 : ℚ
  x3 : ℚ

/-- Six doubles, one coordinate vector of swe_nod_aps. -/
structure Vec6 where
  x0 : ℚ
  x1 : ℚ
  x2 : ℚ
  x3 : ℚ
  x4 : ℚ
  x5 : ℚ

/-- Oracle for the external Swiss Ephemeris engine, whose source is not
part of this repository.  Each field records what one engine entry point
returns for a given body id during the request being modelled. -/
structure Engine where
  calcRet : Int → Int
  calcX : Int → Vec4
  calcErr : Int → String
  planetName : Int → String
  nodRet : Int → Int
  nodAsc : Int → Vec6
  nodDesc : Int → Vec6
  nodPeri : Int → Vec6
  nodAph : Int → Vec6
  nodErr : Int → String
  houseCusp : Nat → ℚ
  houseAngle : Nat → ℚ
  julday : ℚ
  deltat : ℚ

/-! ### Shared JSON emission pieces -/

/-- Concatenation of the strings appended into the output buffer. -/
def strJoin : List String → String
  | [] => ""
  | s :: rest => s ++ strJoin rest

/-- The initDate header object shared by the chart and asteroid builders
(for example astro.c lines 636-638), with `jd` the engine-computed Julian
day and its key name passed in (`jd_ut` or `jd_et`). -/
def initDatePart (year month day hour minute second : Int) (jdKey : String) (jd : ℚ) : String :=
  "\"initDate\": \x7b \"year\": " ++ intDec year ++ ", \"month\": " ++ intDec month ++
  ", \"day\": " ++ intDec day ++ ", \"hour\": " ++ intDec hour ++
  ", \"minute\": " ++ intDec minute ++ ", \"second\": " ++ intDec second ++
  ", \"" ++ jdKey ++ "\": " ++ formatFixed 6 jd ++ " \x7d, "

/-! ### The asteroid batch loops (getAsteroids lines 606-704,
getSpecificAsteroids lines 731-836) -/

/-- Success test of the asteroid loops (astro.c lines 673 and 804):
`iflagret >= 0 && (iflagret & SEFLG_SWIEPH)`. -/
def astSuccess (E : Engine) (ast_num : Int) : Prop :=
  0 ≤ E.calcRet (SE_AST_OFFSET + ast_num) ∧
    (E.calcRet (SE_AST_OFFSET + ast_num)).toNat &&& SEFLG_SWIEPH ≠ 0

instance (E : Engine) (n : Int) : Decidable (astSuccess E n) := by
  unfold astSuccess; infer_instance

/-- The error flag recorded for one asteroid item. -/
def astItemErr (E : Engine) (ast_num : Int) : Bool :=
  if astSuccess E ast_num then false else true

/-- The asteroid name after the fallback at astro.c lines 661-666: when
the engine returns an empty name or "?", `Asteroid_%d` is used. -/
def astName (E : Engine) (ast_num : Int) : String :=
  let snam := E.planetName (SE_AST_OFFSET + ast_num)
  if snam = "" ∨ snam = "?" then "Asteroid_" ++ intDec ast_num else snam

/-- One asteroid item of the batch output (astro.c lines 673-687 and
804-818), including the trailing separator `sChar`. -/
def asteroidItem (E : Engine) (ast_num : Int) (sChar : String) : String :=
  let iflagret := E.calcRet (SE_AST_OFFSET + ast_num)
  let escaped_name := escape_json_string (astName E ast_num) 100
  if astSuccess E ast_num then
    let x := E.calcX (SE_AST_OFFSET + ast_num)
    " \x7b \"index\": " ++ intDec ast_num ++ ", \"name\": \"" ++ escaped_name ++
    "\", \"long\": " ++ formatFixed 6 x.x0 ++ ", \"lat\": " ++ formatFixed 6 x.x1 ++
    ", \"distance\": " ++ formatFixed 6 x.x2 ++ ", \"speed\": " ++ formatFixed 6 x.x3 ++
    ", \"long_s\": \"" ++ (format_degrees x.x0 (0 ||| BIT_ZODIAC)).getD "" ++
    "\", \"iflagret\": " ++ intDec iflagret ++ ", \"error\": false \x7d" ++ sChar
  else
    " \x7b \"index\": " ++ intDec ast_num ++ ", \"name\": \"" ++ escaped_name ++
    "\", \"long\": 0.0, \"lat\": 0.0, \"distance\": 0.0, \"speed\": 0.0, \"long_s\": \"\", \"iflagret\": " ++
    intDec iflagret ++ ", \"error\": true, \"error_msg\": \"" ++
    escape_json_string (E.calcErr (SE_AST_OFFSET + ast_num)) 500 ++ "\" \x7d" ++ sChar

/-- The truncation warning of getAsteroids (astro.c lines 691-692). -/
def rangeWarning (ast_num : Int) : String :=
  " \x7b \"warning\": \"Buffer limit reached, truncating results at asteroid " ++
  intDec ast_num ++ "\" \x7d "

/-- The truncation warning of getSpecificAsteroids (astro.c lines 822-823). -/
def listWarning : String :=
  " \x7b \"warning\": \"Buffer limit reached, truncating results\" \x7d "

/-- State threaded through a batch loop.  `length` and `items` mirror the
C locals `length` and the strings appended into `Buffer` by the loop (the
whole buffer is the header, these strings, and the closing, in order);
`calculated`/`errors` mirror the C tally counters; `emitted` and
`truncated` are observation fields recording which asteroid items were
emitted (with their error flag) and whether the buffer-margin break
fired. -/
structure AstState where
  length : Nat
  items : List String
  calculated : Nat
  errors : Nat
  emitted : List (Int × Bool)
  truncated : Bool

/-- The getAsteroids item loop (astro.c lines 645-695).  After each item
the margin check `length > buflen - 1000` appends a single warning object
and breaks. -/
def astRangeLoop (E : Engine) (buflen : Int) (end_num : Int) :
    List Int → AstState → AstState
  | [], st => st
  | n :: rest, st =>
    let sChar : String := if n = end_num then " " else ", "
    let isErr := astItemErr E n
    let item := asteroidItem E n sChar
    let st1 : AstState :=
      { length := st.length + item.length
        items := st.items ++ [item]
        calculated := st.calculated + (if isErr then 0 else 1)
        errors := st.errors + (if isErr then 1 else 0)
        emitted := st.emitted ++ [(n, isErr)]
        truncated := st.truncated }
    if (st1.length : Int) > buflen - 1000 then
      let w := rangeWarning n
      { st1 with length := st1.length + w.length, items := st1.items ++ [w], truncated := true }
    else
      astRangeLoop E buflen end_num rest st1

/-- The getSpecificAsteroids item loop (astro.c lines 776-826); the last
item is recognized by `i == num_asteroids - 1`, i.e. by an empty rest. -/
def astListLoop (E : Engine) (buflen : Int) : List Int → AstState → AstState
  | [], st => st
  | n :: rest, st =>
    let sChar : String := if rest = [] then " " else ", "
    let isErr := astItemErr E n
    let item := asteroidItem E n sChar
    let st1 : AstState :=
      { length := st.length + item.length
        items := st.items ++ [item]
        calculated := st.calculated + (if isErr then 0 else 1)
        errors := st.errors + (if isErr then 1 else 0)
        emitted := st.emitted ++ [(n, isErr)]
        truncated := st.truncated }
    if (st1.length : Int) > buflen - 1000 then
      { st1 with length := st1.length + listWarning.length,
                 items := st1.items ++ [listWarning], truncated := true }
    else
      astListLoop E buflen rest st1

/-- The inclusive integer range iterated by the getAsteroids for-loop. -/
def intRange (s e : Int) : List Int :=
  (List.range (e + 1 - s).toNat).map (fun k => s + (k : Int))

/-- The item strings the getSpecificAsteroids loop appends for a given
asteroid-number list: every item but the last carries the `, `
separator. -/
def listItemStrings (E : Engine) : List Int → List String
  | [] => []
  | n :: rest =>
    asteroidItem E n (if rest = [] then " " else ", ") :: listItemStrings E rest

/-- Result of a batch builder: the returned buffer contents plus the
normalized bounds and the tallies it printed; headerOut, summaryOut,
itemsOut, emitted and truncated are observation fields recording the
pieces appended into the buffer and the loop outcome. -/
structure AstDoc where
  out : String
  startNum : Int
  endNum : Int
  calculated : Nat
  errors : Nat
  totalRequested : Int
  headerOut : String
  summaryOut : String
  itemsOut : List String
  emitted : List (Int × Bool)
  truncated : Bool

/-- The summary block (astro.c lines 698-700 and 829-831). -/
def summaryPart (calculated errors : Nat) (total : Int) : String :=
  "\"summary\": \x7b \"calculated\": " ++ intDec calculated ++ ", \"errors\": " ++
  intDec errors ++ ", \"total_requested\": " ++ intDec total ++ " \x7d \x7d"

/-- getAsteroids (astro.c lines 606-704): range normalization, header,
item loop, closing summary. -/
def getAsteroids (E : Engine) (year month day hour minute second : Int)
    (start_num0 end_num0 buflen : Int) : AstDoc :=
  let s1 := if start_num0 < 1 then 1 else start_num0
  let e1 := if end_num0 > 1000 then 1000 else end_num0
  let start_num := if s1 > e1 then e1 else s1
  let end_num := if s1 > e1 then s1 else e1
  let header := "\x7b " ++ initDatePart year month day hour minute second "jd_ut" E.julday ++
    "\"asteroid_range\": \x7b \"start\": " ++ intDec start_num ++ ", \"end\": " ++
    intDec end_num ++ " \x7d, " ++ "\"asteroids\": [ "
  let st0 : AstState := ⟨header.length, [], 0, 0, [], false⟩
  let st := astRangeLoop E buflen end_num (intRange start_num end_num) st0
  let total := end_num - start_num + 1
  { out := header ++ strJoin st.items ++ "], " ++ summaryPart st.calculated st.errors total
    startNum := start_num
    endNum := end_num
    calculated := st.calculated
    errors := st.errors
    totalRequested := total
    headerOut := header
    summaryOut := summaryPart st.calculated st.errors total
    itemsOut := st.items
    emitted := st.emitted
    truncated := st.truncated }

/-- Result of getSpecificAsteroids, with the parsed list as an
observation field. -/
structure SpecDoc where
  out : String
  parsed : List Int
  calculated : Nat
  errors : Nat
  totalRequested : Nat
  headerOut : String
  summaryOut : String
  itemsOut : List String
  emitted : List (Int × Bool)
  truncated : Bool

/-- getSpecificAsteroids (astro.c lines 731-836): list parsing, header
with the raw `requested_list` echo (astro.c lines 771-772 print the
caller string unescaped), item loop, closing summary. -/
def getSpecificAsteroids (E : Engine) (year month day hour minute second : Int)
    (asteroid_list : String) (buflen : Int) : SpecDoc :=
  let nums := parseAsteroidLoop (strtokTokens asteroid_list) 0
  let header := "\x7b " ++ initDatePart year month day hour minute second "jd_ut" E.julday ++
    "\"requested_list\": \"" ++ asteroid_list ++ "\", " ++ "\"asteroids\": [ "
  let st0 : AstState := ⟨header.length, [], 0, 0, [], false⟩
  let st := astListLoop E buflen nums st0
  { out := header ++ strJoin st.items ++ "], " ++
      summaryPart st.calculated st.errors (nums.length : Int)
    parsed := nums
    calculated := st.calculated
    errors := st.errors
    totalRequested := nums.length
    headerOut := header
    summaryOut := summaryPart st.calculated st.errors (nums.length : Int)
    itemsOut := st.items
    emitted := st.emitted
    truncated := st.truncated }

/-! ### format_planet_json and the planet loops (astro.c lines 299-400,
879-916) -/

/-- format_planet_json (astro.c lines 299-323).  The name and the error
message are escaped; the error branch zeroes the numeric fields. -/
def format_planet_json (planet_id : Int) (name : String) (coords : Vec4)
    (flags : Int) (error_msg : Option String) (separator : String) : String :=
  let escaped_name := escape_json_string name 100
  match error_msg with
  | some e =>
    " \x7b \"index\": " ++ intDec planet_id ++ ", \"name\": \"" ++ escaped_name ++
    "\", \"long\": 0.0, \"lat\": 0.0, \"distance\": 0.0, \"speed\": 0.0, \"long_s\": \"\", \"iflagret\": " ++
    intDec flags ++ ", \"error\": true, \"error_msg\": \"" ++
    escape_json_string e 500 ++ "\" \x7d" ++ separator
  | none =>
    " \x7b \"index\": " ++ intDec planet_id ++ ", \"name\": \"" ++ escaped_name ++
    "\", \"long\": " ++ formatFixed 6 coords.x0 ++ ", \"lat\": " ++ formatFixed 6 coords.x1 ++
    ", \"distance\": " ++ formatFixed 9 coords.x2 ++ ", \"speed\": " ++ formatFixed 6 coords.x3 ++
    ", \"long_s\": \"" ++ (format_degrees coords.x0 BIT_ZODIAC).getD "" ++
    "\", \"iflagret\": " ++ intDec flags ++ ", \"error\": false \x7d" ++ separator

/-- State of a planets/nodes emission loop: the strings appended so far
and, as an observation field, the body indices emitted. -/
structure ChartState where
  items : List String
  indices : List Int

/-- The planets loop shared by astro and getPlanets (astro.c lines
356-370 and 898-912): iterate the body indices, skip Earth, emit one
record per body with the success test
`result_flags > 0 && (result_flags & SEFLG_SWIEPH)`. -/
def planetsLoop (E : Engine) : List Int → ChartState → ChartState
  | [], st => st
  | p :: rest, st =>
    if p = SE_EARTH then planetsLoop E rest st
    else
      let separator : String := if p = SE_NPLANETS - 1 then " " else ", "
      let rf := E.calcRet p
      let item :=
        if 0 < rf ∧ rf.toNat &&& SEFLG_SWIEPH ≠ 0 then
          format_planet_json p (E.planetName p) (E.calcX p) rf none separator
        else
          format_planet_json p (E.planetName p) (E.calcX p) rf (some (E.calcErr p)) separator
      planetsLoop E rest { items := st.items ++ [item], indices := st.indices ++ [p] }

/-- A produced chart document plus the observed body-index list of its
planets (or nodes) array. -/
structure ChartDoc where
  out : String
  bodyIndices : List Int

/-- The ascmc and houses sections of astro/getHouses (astro.c lines
382-397), with the house cusps and angles supplied by the engine
oracle. -/
def housesPart (E : Engine) : String :=
  let ascmc := "\"ascmc\": [ \x7b \"name\": \"Asc\", \"long\": " ++
    formatFixed 6 (E.houseAngle 0) ++ ", \"long_s\": \"" ++
    (format_degrees (E.houseAngle 0) BIT_ZODIAC).getD "" ++ "\" \x7d, " ++
    "\x7b \"name\": \"MC\", \"long\": " ++ formatFixed 6 (E.houseAngle 1) ++
    ", \"long_s\": \"" ++ (format_degrees (E.houseAngle 1) BIT_ZODIAC).getD "" ++
    "\" \x7d ], "
  let houseItem : Nat → String := fun h =>
    "\x7b \"name\": \"" ++ intDec (h : Int) ++ "\", \"long\": " ++
    formatFixed 6 (E.houseCusp h) ++ ", \"long_s\": \"" ++
    (format_degrees (E.houseCusp h) BIT_ZODIAC).getD "" ++ "\" \x7d" ++
    (if h = 12 then " " else ", ") ++ " "
  ascmc ++ "\"houses\": [ " ++
    strJoin (((List.range 12).map (· + 1)).map houseItem) ++ "] \x7d"

/-- astro (astro.c lines 328-400): the full chart document.  The
geographic inputs are normalized with convert_coordinates and passed to
the engine for the house computation, whose outputs come back through
the oracle. -/
def astro (E : Engine) (year month day hour minute second : Int)
    (lonG lonM lonS : Int) (lonEW : Char) (latG latM latS : Int) (latNS : Char)
    (_iHouse : Char) (_buflen : Int) : ChartDoc :=
  let header := "\x7b " ++ initDatePart year month day hour minute second "jd_ut" E.julday ++
    "\"planets\": [ "
  let st := planetsLoop E (intRange SE_SUN (SE_NPLANETS - 1)) ⟨[], []⟩
  let _longitude := convert_coordinates lonG lonM lonS lonEW
  let _latitude := convert_coordinates latG latM latS latNS
  { out := header ++ strJoin st.items ++ "], " ++ housesPart E
    bodyIndices := st.indices }

/-- getPlanets (astro.c lines 879-916): planets-only document. -/
def getPlanets (E : Engine) (year month day hour minute second : Int) : ChartDoc :=
  let header := "\x7b " ++ initDatePart year month day hour minute second "jd_ut" E.julday ++
    "\"planets\": [ "
  let st := planetsLoop E (intRange SE_SUN (SE_NPLANETS - 1)) ⟨[], []⟩
  { out := header ++ strJoin st.items ++ "] \x7d"
    bodyIndices := st.indices }

/-! ### Planetary nodes (astro.c lines 427-559) -/

/-- One node/apsis sub-object of the nodes output. -/
def nodeSub (key : String) (v : Vec6) : String :=
  "\"" ++ key ++ "\": \x7b \"long\": " ++ formatFixed 6 v.x0 ++
  ", \"lat\": " ++ formatFixed 6 v.x1 ++ ", \"distance\": " ++ formatFixed 9 v.x2 ++
  ", \"speed_long\": " ++ formatFixed 6 v.x3 ++ ", \"speed_lat\": " ++ formatFixed 6 v.x4 ++
  ", \"speed_dist\": " ++ formatFixed 9 v.x5 ++ ", \"long_s\": \"" ++
  (format_degrees v.x0 BIT_ZODIAC).getD "" ++ "\" \x7d"

/-- The per-planet loop of getPlanetaryNodes (astro.c lines 451-499):
Sun through Pluto, skip Earth, escaped name and error message, success
test `result >= 0`. -/
def nodesLoop (E : Engine) : List Int → ChartState → ChartState
  | [], st => st
  | p :: rest, st =>
    if p = SE_EARTH then nodesLoop E rest st
    else
      let separator : String := if p = SE_PLUTO then " " else ", "
      let escaped_name := escape_json_string (E.planetName p) 100
      let item :=
        if 0 ≤ E.nodRet p then
          " \x7b \"index\": " ++ intDec p ++ ", \"name\": \"" ++ escaped_name ++ "\", " ++
          nodeSub "ascending_node" (E.nodAsc p) ++ ", " ++
          nodeSub "descending_node" (E.nodDesc p) ++ ", " ++
          nodeSub "perihelion" (E.nodPeri p) ++ ", " ++
          nodeSub "aphelion" (E.nodAph p) ++ ", \"error\": false \x7d" ++ separator
        else
          " \x7b \"index\": " ++ intDec p ++ ", \"name\": \"" ++ escaped_name ++
          "\", \"error\": true, \"error_msg\": \"" ++
          escape_json_string (E.nodErr p) 500 ++ "\" \x7d" ++ separator
      nodesLoop E rest { items := st.items ++ [item], indices := st.indices ++ [p] }

/-- getPlanetaryNodes (astro.c lines 427-503): nodes and apsides for all
major planets; the ephemeris time is universal time plus the engine
delta-t. -/
def getPlanetaryNodes (E : Engine) (year month day hour minute second : Int)
    (method : Int) (_buflen : Int) : ChartDoc :=
  let jd_et := E.julday + E.deltat
  let header := "\x7b " ++ initDatePart year month day hour minute second "jd_et" jd_et ++
    "\"method\": " ++ intDec method ++ ", \"nodes\": [ "
  let st := nodesLoop E (intRange SE_SUN SE_PLUTO) ⟨[], []⟩
  { out := header ++ strJoin st.items ++ "] \x7d"
    bodyIndices := st.indices }

/-- getSinglePlanetNodes (astro.c lines 509-559).  Unlike
getPlanetaryNodes, this function embeds `planet_name` and `error_msg`
without calling escape_json_string (astro.c lines 531-556). -/
def getSinglePlanetNodes (E : Engine) (planet_id : Int) (julian_day_et : ℚ)
    (method : Int) (_buflen : Int) : String :=
  let planet_name := E.planetName planet_id
  if 0 ≤ E.nodRet planet_id then
    "\x7b \"index\": " ++ intDec planet_id ++ ", \"name\": \"" ++ planet_name ++
    "\", \"jd_et\": " ++ formatFixed 6 julian_day_et ++ ", \"method\": " ++ intDec method ++ ", " ++
    nodeSub "ascending_node" (E.nodAsc planet_id) ++ ", " ++
    nodeSub "descending_node" (E.nodDesc planet_id) ++ ", " ++
    nodeSub "perihelion" (E.nodPeri planet_id) ++ ", " ++
    nodeSub "aphelion" (E.nodAph planet_id) ++ ", \"error\": false \x7d"
  else
    "\x7b \"index\": " ++ intDec planet_id ++ ", \"name\": \"" ++ planet_name ++
    "\", \"jd_et\": " ++ formatFixed 6 julian_day_et ++ ", \"method\": " ++ intDec method ++
    ", \"error\": true, \"error_msg\": \"" ++ E.nodErr planet_id ++ "\" \x7d"

/-! ### A JSON syntax checker

Used to state the claims that a produced document is (or fails to be)
syntactically valid JSON.  The grammar follows RFC 8259; the checker is a
fuel-indexed recursive descent parser. -/

def jQuote : Char := Char.ofNat 34

def jBackslash : Char := Char.ofNat 92

def jLBrace : Char := Char.ofNat 123

def jRBrace : Char := Char.ofNat 125

def jLBrack : Char := Char.ofNat 91

def jRBrack : Char := Char.ofNat 93

def jComma : Char := Char.ofNat 44

def jColon : Char := Char.ofNat 58

def jMinus : Char := Char.ofNat 45

def skipWs : List Char → List Char
  | [] => []
  | c :: cs =>
    if c = Char.ofNat 32 ∨ c = Char.ofNat 9 ∨ c = Char.ofNat 10 ∨ c = Char.ofNat 13 then
      skipWs cs
    else c :: cs

def isHexChar (c : Char) : Bool :=
  c.isDigit ∨ (97 ≤ c.toNat ∧ c.toNat ≤ 102) ∨ (65 ≤ c.toNat ∧ c.toNat ≤ 70)

/-- Consume the rest of a JSON string (the opening quote already read). -/
def jsonStringRest : List Char → Option (List Char)
  | [] => none
  | c :: cs =>
    if c = jQuote then some cs
    else if c = jBackslash then
      match cs with
      | [] => none
      | e :: cs2 =>
        if e = Char.ofNat 117 then
          match cs2 with
          | a :: b :: c3 :: d :: cs3 =>
            if isHexChar a ∧ isHexChar b ∧ isHexChar c3 ∧ isHexChar d then
              jsonStringRest cs3
            else none
          | _ => none
        else if e = jQuote ∨ e = jBackslash ∨ e = Char.ofNat 47 ∨ e = Char.ofNat 98 ∨
            e = Char.ofNat 102 ∨ e = Char.ofNat 110 ∨ e = Char.ofNat 114 ∨
            e = Char.ofNat 116 then
          jsonStringRest cs2
        else none
    else if c.toNat < 32 then none
    else jsonStringRest cs

/-- Consume a maximal run of decimal digits. -/
def jsonDigits : List Char → List Char
  | [] => []
  | c :: cs => if c.isDigit then jsonDigits cs else c :: cs

/-- Consume one-or-more decimal digits. -/
def jsonDigits1 : List Char → Option (List Char)
  | [] => none
  | c :: cs => if c.isDigit then some (jsonDigits cs) else none

/-- Consume a JSON number (integer part, optional fraction, optional
exponent). -/
def jsonNumber (cs : List Char) : Option (List Char) :=
  let afterMinus := match cs with
    | c :: rest => if c = jMinus then rest else cs
    | [] => cs
  match jsonDigits1 afterMinus with
  | none => none
  | some cs1 =>
    let cs2 := match cs1 with
      | c :: rest =>
        if c = Char.ofNat 46 then jsonDigits1 rest else some cs1
      | [] => some cs1
    match cs2 with
    | none => none
    | some cs3 =>
      match cs3 with
      | c :: rest =>
        if c = Char.ofNat 101 ∨ c = Char.ofNat 69 then
          let rest2 := match rest with
            | c2 :: r2 => if c2 = jMinus ∨ c2 = Char.ofNat 43 then r2 else rest
            | [] => rest
          jsonDigits1 rest2
        else some cs3
      | [] => some cs3

/-- Match the given literal characters. -/
def jsonLit : List Char → List Char → Option (List Char)
  | [], cs => some cs
  | _ :: _, [] => none
  | e :: es, c :: cs => if c = e then jsonLit es cs else none

/-- Parser modes: a single value; the inside of an object just after the
opening brace; a nonempty member sequence; the inside of an array just
after the opening bracket; a nonempty element sequence. -/
inductive JM
  | val
  | objBody
  | objMember
  | arrBody
  | arrItem

/-- Fuel-indexed JSON parser; returns the unconsumed remainder. -/
def jparse : Nat → JM → List Char → Option (List Char)
  | 0, _, _ => none
  | fuel + 1, m, cs0 =>
    let cs := skipWs cs0
    match m with
    | JM.val =>
      match cs with
      | [] => none
      | c :: rest =>
        if c = jLBrace then jparse fuel JM.objBody rest
        else if c = jLBrack then jparse fuel JM.arrBody rest
        else if c = jQuote then jsonStringRest rest
        else if c = Char.ofNat 116 then jsonLit [Char.ofNat 114, Char.ofNat 117, Char.ofNat 101] rest
        else if c = Char.ofNat 102 then jsonLit [Char.ofNat 97, Char.ofNat 108, Char.ofNat 115, Char.ofNat 101] rest
        else if c = Char.ofNat 110 then jsonLit [Char.ofNat 117, Char.ofNat 108, Char.ofNat 108] rest
        else jsonNumber cs
    | JM.objBody =>
      match cs with
      | [] => none
      | c :: rest =>
        if c = jRBrace then some rest
        else jparse fuel JM.objMember cs
    | JM.objMember =>
      match cs with
      | c :: rest =>
        if c = jQuote then
          match jsonStringRest rest with
          | none => none
          | some cs2 =>
            match skipWs cs2 with
            | c2 :: rest2 =>
              if c2 = jColon then
                match jparse fuel JM.val rest2 with
                | none => none
                | some cs3 =>
                  match skipWs cs3 with
                  | c3 :: rest3 =>
                    if c3 = jComma then jparse fuel JM.objMember rest3
                    else if c3 = jRBrace then some rest3
                    else none
                  | [] => none
              else none
            | [] => none
        else none
      | [] => none
    | JM.arrBody =>
      match cs with
      | [] => none
      | c :: rest =>
        if c = jRBrack then some rest
        else jparse fuel JM.arrItem cs
    | JM.arrItem =>
      match jparse fuel JM.val cs with
      | none => none
      | some cs2 =>
        match skipWs cs2 with
        | c2 :: rest2 =>
          if c2 = jComma then jparse fuel JM.arrItem rest2
          else if c2 = jRBrack then some rest2
          else none
        | [] => none

/-- A string is valid JSON when one value parses and only whitespace
remains. -/
def isValidJson (s : String) : Bool :=
  match jparse (2 * s.length + 16) JM.val s.data with
  | some rest => (skipWs rest).isEmpty
  | none => false

/-! ### Spec-side definitions

These follow the wording of the specification, to be compared with the
behaviour extracted from the source. -/

/-- Per the spec of getAsteroids: raise a start below 1 to 1, lower an
end above 1000 to 1000, and swap the two when start exceeds end. -/
def normalizeRangeSpec (s e : Int) : Int × Int :=
  let s1 := max s 1
  let e1 := min e 1000
  if e1 < s1 then (e1, s1) else (s1, e1)

/-- Per the spec rounding policy: the whole-minute count left after
truncating to minutes, shown within the current degree. -/
def specMin (x : ℚ) : ℤ := ⌊60 * x⌋ - 60 * ⌊x⌋

/-- Per the spec rounding policy: the whole-second count left after
truncating to seconds, shown within the current minute. -/
def specSec (x : ℚ) : ℤ := ⌊3600 * x⌋ - 60 * ⌊60 * x⌋

/-- Per the spec rounding policy: the four-decimal-digit fractional-second
numerator: the fractional second scaled by 10000 and truncated. -/
def specFrac (x : ℚ) : ℤ := ⌊10000 * (3600 * x - ⌊3600 * x⌋)⌋

/-- Per the spec: the remainder of the (normalized, rounded) value within
the current zodiac sign, after dividing by 30 to obtain the sign index. -/
def zRem (x : ℚ) : ℚ := x - 30 * (⌊x / 30⌋ : ℚ)

/-- Per the spec: the list parser keeps, in order, the atoi value of
each comma token that lies in 1..1000, at most the first 1000 of them. -/
def parseListSpec (s : String) : List Int :=
  (((strtokTokens s).map atoi).filter (fun n => decide (0 < n ∧ n ≤ 1000))).take 1000

/-! ### Concrete engine oracles for the closed evaluations -/

/-- A benign engine: every position call succeeds (return flags
SEFLG_SWIEPH|SEFLG_SPEED = 258) with zeroed coordinates, every body is
named "A". -/
def baseEngine : Engine :=
  ⟨fun _ => 258, fun _ => ⟨0, 0, 0, 0⟩, fun _ => "oops", fun _ => "A",
   fun _ => 0, fun _ => ⟨0, 0, 0, 0, 0, 0⟩, fun _ => ⟨0, 0, 0, 0, 0, 0⟩,
   fun _ => ⟨0, 0, 0, 0, 0, 0⟩, fun _ => ⟨0, 0, 0, 0, 0, 0⟩, fun _ => "",
   fun _ => 0, fun _ => 0, 0, 0⟩

/-- An engine whose node computation fails, with a double quote inside
the error message. -/
def nodesFailEngine : Engine :=
  { baseEngine with nodRet := fun _ => -1, nodErr := fun _ => "file \"a\" missing" }

/-- An engine on which exactly asteroid 2 fails
(body id SE_AST_OFFSET + 2). -/
def midFailEngine : Engine :=
  { baseEngine with calcRet := fun id => if id = 10002 then -1 else 258 }

/-- Strings whose characters are never the minus sign. -/
def strNoMinus (s : String) : Prop := ∀ c ∈ s.data, c ≠ Char.ofNat 45

/-! ### Helper lemmas: characters of the rendered numbers -/

theorem natDigitsAux_chars (fuel : Nat) :
    ∀ (n : Nat) (acc : List Char) (c : Char),
      c ∈ natDigitsAux fuel n acc → c.isDigit ∨ c ∈ acc := by
  induction fuel with
  | zero => intro n acc c hc; exact Or.inr hc
  | succ fuel ih =>
    intro n acc c hc
    have hdig : (Char.ofNat (48 + n % 10)).isDigit := by
      have h10 : n % 10 < 10 := Nat.mod_lt _ (by omega)
      have : ∀ m, m < 10 → (Char.ofNat (48 + m)).isDigit := by decide
      exact this _ h10
    unfold natDigitsAux at hc
    by_cases hn : n < 10
    · simp only [hn, if_true] at hc
      rcases List.mem_cons.mp hc with rfl | hc
      · exact Or.inl hdig
      · exact Or.inr hc
    · simp only [hn, if_false] at hc
      rcases ih _ _ _ hc with h | h
      · exact Or.inl h
      · rcases List.mem_cons.mp h with rfl | h
        · exact Or.inl hdig
        · exact Or.inr h

theorem natDec_chars (n : Nat) (c : Char) (hc : c ∈ (natDec n).data) : c.isDigit := by
  rcases natDigitsAux_chars (n + 1) n [] c hc with h | h
  · exact h
  · cases h

theorem intDec_chars (i : ℤ) (hi : 0 ≤ i) (c : Char) (hc : c ∈ (intDec i).data) :
    c.isDigit := by
  unfold intDec at hc
  rw [if_neg (by omega)] at hc
  exact natDec_chars _ _ hc

theorem padNum_chars (w : Nat) (i : ℤ) (hi : 0 ≤ i) (c : Char)
    (hc : c ∈ (padNum w i).data) : c.isDigit ∨ c = Char.ofNat 32 := by
  simp only [padNum] at hc
  split at hc
  · rw [String.data_append] at hc
    rcases List.mem_append.mp hc with h | h
    · exact Or.inr (List.eq_of_mem_replicate h)
    · exact Or.inl (intDec_chars i hi c h)
  · exact Or.inl (intDec_chars i hi c hc)

theorem pad0_chars (w : Nat) (i : ℤ) (hi : 0 ≤ i) (c : Char)
    (hc : c ∈ (pad0 w i).data) : c.isDigit := by
  simp only [pad0] at hc
  split at hc
  · rw [String.data_append] at hc
    rcases List.mem_append.mp hc with h | h
    · have := List.eq_of_mem_replicate h
      subst this; decide
    · exact intDec_chars i hi c h
  · exact intDec_chars i hi c hc

theorem strNoMinus_append {a b : String} (ha : strNoMinus a) (hb : strNoMinus b) :
    strNoMinus (a ++ b) := by
  intro c hc
  rw [String.data_append] at hc
  rcases List.mem_append.mp hc with h | h
  · exact ha c h
  · exact hb c h

theorem strNoMinus_padNum {w : Nat} {i : ℤ} (hi : 0 ≤ i) : strNoMinus (padNum w i) := by
  intro c hc
  rcases padNum_chars w i hi c hc with h | rfl
  · intro heq; subst heq; cases h
  · decide

theorem strNoMinus_pad0 {w : Nat} {i : ℤ} (hi : 0 ≤ i) : strNoMinus (pad0 w i) := by
  intro c hc hne
  subst hne
  cases pad0_chars w i hi _ hc

theorem strNoMinus_zodiac {n : Nat} : strNoMinus (zodiac_signs.getD n "") := by
  have h : ∀ zs ∈ zodiac_signs, ∀ c ∈ zs.data, c ≠ Char.ofNat 45 := by decide
  by_cases hn : n < zodiac_signs.length
  · rw [List.getD_eq_get _ _ hn]
    exact h _ (List.get_mem _ _ _)
  · rw [List.getD_eq_default _ _ (by omega)]
    intro c hc; cases hc

/-! ### Helper lemmas: first digit position and the in-place minus -/

theorem firstDigitIdx_lt_length :
    ∀ (l : List Char) (j : Nat), firstDigitIdx l = some j → j < l.length := by
  intro l
  induction l with
  | nil => intro j h; cases h
  | cons c cs ih =>
    intro j h
    unfold firstDigitIdx at h
    split at h
    · cases h; simp
    · rcases Option.map_eq_some'.mp h with ⟨i, hi, rfl⟩
      have := ih i hi
      simp; omega

theorem setAt_get? (ch : Char) :
    ∀ (l : List Char) (i : Nat), i < l.length → (setAt l i ch).get? i = some ch := by
  intro l
  induction l with
  | nil => intro i h; simp at h
  | cons c cs ih =>
    intro i h
    cases i with
    | zero => rfl
    | succ i =>
      show (setAt cs i ch).get? i = some ch
      exact ih i (by simpa using h)

theorem firstDigitIdx_setAt {ch : Char} (hch : ¬ch.isDigit) :
    ∀ (l : List Char) (i : Nat), firstDigitIdx l = some (i + 1) →
      firstDigitIdx (setAt l i ch) = some (i + 1) := by
  intro l
  induction l with
  | nil => intro i h; cases h
  | cons c cs ih =>
    intro i h
    unfold firstDigitIdx at h
    split at h
    · cases h
    · rcases Option.map_eq_some'.mp h with ⟨j, hj, hji⟩
      cases i with
      | zero =>
        have : j = 0 := by omega
        subst this
        show firstDigitIdx (ch :: cs) = some 1
        unfold firstDigitIdx
        rw [if_neg (by simpa using hch), hj]
        rfl
      | succ i =>
        have hji2 : j = i + 1 := by omega
        subst hji2
        show firstDigitIdx (c :: setAt cs i ch) = some (i + 2)
        unfold firstDigitIdx
        split
        · rename_i hcd; exact absurd hcd (by assumption)
        · rw [ih i hj]; rfl

theorem applyNegSign_props (sign : ℤ) (l : List Char)
    (hnm : ∀ c ∈ l, c ≠ Char.ofNat 45) :
    (0 ≤ sign → ∀ c ∈ applyNegSign sign l, c ≠ Char.ofNat 45) ∧
    (sign < 0 → ∀ j, firstDigitIdx (applyNegSign sign l) = some (j + 1) →
      (applyNegSign sign l).get? j = some (Char.ofNat 45)) ∧
    (firstDigitIdx (applyNegSign sign l) = some 0 →
      ∀ c ∈ applyNegSign sign l, c ≠ Char.ofNat 45) := by
  by_cases hs : sign < 0
  · rcases hfd : firstDigitIdx l with _ | i
    · have hres : applyNegSign sign l = l := by
        unfold applyNegSign; rw [if_pos hs, hfd]
      refine ⟨fun h0 => absurd (lt_of_lt_of_le hs h0) (lt_irrefl sign), ?_, ?_⟩
      · intro _ j hj
        rw [hres, hfd] at hj; cases hj
      · intro _ c hc; exact hnm c (hres ▸ hc)
    · cases i with
      | zero =>
        have hres : applyNegSign sign l = l := by
          unfold applyNegSign; rw [if_pos hs, hfd]
        refine ⟨fun h0 => absurd (lt_of_lt_of_le hs h0) (lt_irrefl sign), ?_, ?_⟩
        · intro _ j hj
          rw [hres, hfd] at hj; cases hj
        · intro _ c hc; exact hnm c (hres ▸ hc)
      | succ i =>
        have hres : applyNegSign sign l = setAt l i (Char.ofNat 45) := by
          unfold applyNegSign; rw [if_pos hs, hfd]
        have hfd2 : firstDigitIdx (applyNegSign sign l) = some (i + 1) := by
          rw [hres]
          exact firstDigitIdx_setAt (by decide) l i hfd
        refine ⟨fun h0 => absurd (lt_of_lt_of_le hs h0) (lt_irrefl sign), ?_, ?_⟩
        · intro _ j hj
          rw [hfd2] at hj
          have hij : j = i := by injection hj with h1; omega
          rw [hres, hij]
          exact setAt_get? _ l i (by have := firstDigitIdx_lt_length l (i + 1) hfd; omega)
        · intro h0
          rw [hfd2] at h0; cases h0
  · have hres : applyNegSign sign l = l := by
      unfold applyNegSign; rw [if_neg hs]
    refine ⟨?_, fun h0 => absurd h0 hs, ?_⟩
    · intro _ c hc; exact hnm c (hres ▸ hc)
    · intro _ c hc; exact hnm c (hres ▸ hc)

/-! ### Helper lemmas: nonnegativity of the DMS components -/

theorem ctrunc_eq_floor {q : ℚ} (h : 0 ≤ q) : ctrunc q = ⌊q⌋ := by
  unfold ctrunc; rw [if_pos h]

theorem ctrunc_nonneg {q : ℚ} (h : 0 ≤ q) : 0 ≤ ctrunc q := by
  rw [ctrunc_eq_floor h]; exact Int.floor_nonneg.mpr h

theorem sub_floor_nonneg (x : ℚ) : 0 ≤ x - ⌊x⌋ := by
  rw [Int.self_sub_floor]; exact Int.fract_nonneg x

theorem swe_degnorm_nonneg (x : ℚ) : 0 ≤ swe_degnorm x := by
  unfold swe_degnorm
  have h := Int.floor_le (x / 360)
  have : (360 : ℚ) * ⌊x / 360⌋ ≤ 360 * (x / 360) := by
    exact mul_le_mul_of_nonneg_left h (by norm_num)
  have h360 : (360 : ℚ) * (x / 360) = x := by ring
  linarith

theorem swe_degnorm_lt (x : ℚ) : swe_degnorm x < 360 := by
  unfold swe_degnorm
  have h := Int.lt_floor_add_one (x / 360)
  have : 360 * (x / 360) < 360 * ((⌊x / 360⌋ : ℚ) + 1) := by
    exact mul_lt_mul_of_pos_left h (by norm_num)
  have h360 : (360 : ℚ) * (x / 360) = x := by ring
  linarith

theorem fd_adjusted_nonneg (degrees : ℚ) (flags : Nat) : 0 ≤ fd_adjusted degrees flags := by
  unfold fd_adjusted
  have h := swe_degnorm_nonneg |degrees|
  split <;> split <;> linarith

/-- Nonnegativity of the four successive truncation arguments used by
format_degrees on a nonnegative input value. -/
theorem dms_args_nonneg (x : ℚ) (hx : 0 ≤ x) :
    0 ≤ ctrunc x ∧
    0 ≤ (x - ctrunc x) * 60 ∧
    0 ≤ ((x - ctrunc x) * 60 - ctrunc ((x - ctrunc x) * 60)) * 60 ∧
    0 ≤ (((x - ctrunc x) * 60 - ctrunc ((x - ctrunc x) * 60)) * 60 -
          ctrunc (((x - ctrunc x) * 60 - ctrunc ((x - ctrunc x) * 60)) * 60)) * 10000 := by
  have h0 : ctrunc x = ⌊x⌋ := ctrunc_eq_floor hx
  have h1 : 0 ≤ (x - ctrunc x) * 60 := by
    rw [h0]; have := sub_floor_nonneg x; linarith
  have h2 : ctrunc ((x - ctrunc x) * 60) = ⌊(x - ctrunc x) * 60⌋ := ctrunc_eq_floor h1
  have h3 : 0 ≤ ((x - ctrunc x) * 60 - ctrunc ((x - ctrunc x) * 60)) * 60 := by
    rw [h2]; have := sub_floor_nonneg ((x - ctrunc x) * 60); linarith
  have h4 : ctrunc (((x - ctrunc x) * 60 - ctrunc ((x - ctrunc x) * 60)) * 60) =
      ⌊((x - ctrunc x) * 60 - ctrunc ((x - ctrunc x) * 60)) * 60⌋ := ctrunc_eq_floor h3
  refine ⟨by rw [h0]; exact Int.floor_nonneg.mpr hx, h1, h3, ?_⟩
  rw [h4]
  have := sub_floor_nonneg (((x - ctrunc x) * 60 - ctrunc ((x - ctrunc x) * 60)) * 60)
  linarith

theorem fmod30_nonneg (d : ℚ) (hd : 0 ≤ d) : 0 ≤ d - 30 * (ctrunc (d / 30) : ℚ) := by
  rw [ctrunc_eq_floor (by positivity)]
  have h := Int.floor_le (d / 30)
  have h2 : (30 : ℚ) * ⌊d / 30⌋ ≤ 30 * (d / 30) := mul_le_mul_of_nonneg_left h (by norm_num)
  have h3 : (30 : ℚ) * (d / 30) = d := by ring
  linarith

theorem zodiac_get_noMinus :
    ∀ i : Fin zodiac_signs.length, ∀ c ∈ (zodiac_signs.get i).data, c ≠ Char.ofNat 45 := by
  decide

theorem noMinus_space : strNoMinus " " := by unfold strNoMinus; decide

theorem noMinus_apos : strNoMinus apos := by unfold strNoMinus; decide

theorem noMinus_dot : strNoMinus "." := by unfold strNoMinus; decide

theorem noMinus_symbol (f : Nat) :
    strNoMinus (if f &&& SEFLG_EQUATORIAL ≠ 0 then "h" else "d") := by
  unfold strNoMinus; split <;> decide

theorem noMinus_zMin {deg mn : ℤ} (zs : String) (hd : 0 ≤ deg) (hm : 0 ≤ mn)
    (hz : strNoMinus zs) :
    strNoMinus (padNum 2 deg ++ " " ++ zs ++ " " ++ padNum 2 mn) :=
  strNoMinus_append (strNoMinus_append (strNoMinus_append
    (strNoMinus_append (strNoMinus_padNum hd) noMinus_space) hz) noMinus_space)
    (strNoMinus_padNum hm)

theorem noMinus_zSec {deg mn sec : ℤ} (zs : String) (hd : 0 ≤ deg) (hm : 0 ≤ mn)
    (hs : 0 ≤ sec) (hz : strNoMinus zs) :
    strNoMinus (padNum 2 deg ++ " " ++ zs ++ " " ++ padNum 2 mn ++ apos ++ padNum 2 sec) :=
  strNoMinus_append (strNoMinus_append (noMinus_zMin zs hd hm hz) noMinus_apos)
    (strNoMinus_padNum hs)

theorem noMinus_zFrac {deg mn sec frac : ℤ} (zs : String) (hd : 0 ≤ deg) (hm : 0 ≤ mn)
    (hs : 0 ≤ sec) (hf : 0 ≤ frac) (hz : strNoMinus zs) :
    strNoMinus (padNum 2 deg ++ " " ++ zs ++ " " ++ padNum 2 mn ++ apos ++ padNum 2 sec
      ++ "." ++ pad0 4 frac) :=
  strNoMinus_append (strNoMinus_append (noMinus_zSec zs hd hm hs hz) noMinus_dot)
    (strNoMinus_pad0 hf)

theorem noMinus_pMin {deg mn : ℤ} (sym : String) (hd : 0 ≤ deg) (hm : 0 ≤ mn)
    (hsym : strNoMinus sym) :
    strNoMinus (padNum 3 deg ++ sym ++ padNum 2 mn ++ apos) :=
  strNoMinus_append (strNoMinus_append (strNoMinus_append (strNoMinus_padNum hd) hsym)
    (strNoMinus_padNum hm)) noMinus_apos

theorem noMinus_pSec {deg mn sec : ℤ} (sym : String) (hd : 0 ≤ deg) (hm : 0 ≤ mn)
    (hs : 0 ≤ sec) (hsym : strNoMinus sym) :
    strNoMinus (padNum 3 deg ++ sym ++ padNum 2 mn ++ apos ++ padNum 2 sec) :=
  strNoMinus_append (noMinus_pMin sym hd hm hsym) (strNoMinus_padNum hs)

theorem noMinus_pFrac {deg mn sec frac : ℤ} (sym : String) (hd : 0 ≤ deg) (hm : 0 ≤ mn)
    (hs : 0 ≤ sec) (hf : 0 ≤ frac) (hsym : strNoMinus sym) :
    strNoMinus (padNum 3 deg ++ sym ++ padNum 2 mn ++ apos ++ padNum 2 sec
      ++ "." ++ pad0 4 frac) :=
  strNoMinus_append (strNoMinus_append (noMinus_pSec sym hd hm hs hsym) noMinus_dot)
    (strNoMinus_pad0 hf)

theorem zodiacCore_noMinus (flags : Nat) (zs : String) (x : ℚ) (hx : 0 ≤ x)
    (hz : strNoMinus zs) : strNoMinus (zodiacCore flags zs x) := by
  obtain ⟨k1, k2, k3, k4⟩ := dms_args_nonneg x hx
  simp only [zodiacCore]
  split
  · exact noMinus_zMin _ (ctrunc_nonneg hx) (ctrunc_nonneg k2) hz
  · split
    · exact noMinus_zSec _ (ctrunc_nonneg hx) (ctrunc_nonneg k2) (ctrunc_nonneg k3) hz
    · exact noMinus_zFrac _ (ctrunc_nonneg hx) (ctrunc_nonneg k2) (ctrunc_nonneg k3)
        (ctrunc_nonneg k4) hz

theorem plainCore_noMinus (flags : Nat) (sym : String) (x : ℚ) (hx : 0 ≤ x)
    (hsym : strNoMinus sym) : strNoMinus (plainCore flags sym x) := by
  obtain ⟨k1, k2, k3, k4⟩ := dms_args_nonneg x hx
  simp only [plainCore]
  split
  · exact noMinus_pMin _ (ctrunc_nonneg hx) (ctrunc_nonneg k2) hsym
  · split
    · exact noMinus_pSec _ (ctrunc_nonneg hx) (ctrunc_nonneg k2) (ctrunc_nonneg k3) hsym
    · exact noMinus_pFrac _ (ctrunc_nonneg hx) (ctrunc_nonneg k2) (ctrunc_nonneg k3)
        (ctrunc_nonneg k4) hsym

/-! ### Helper lemmas: the nested truncations equal the spec formulas -/

theorem floor_min_eq (x : ℚ) : ⌊(x - (⌊x⌋ : ℚ)) * 60⌋ = specMin x := by
  unfold specMin
  have hrw : (x - (⌊x⌋ : ℚ)) * 60 = 60 * x - ((60 * ⌊x⌋ : ℤ) : ℚ) := by push_cast; ring
  rw [hrw, Int.floor_sub_int]

theorem floor_sec_eq (x : ℚ) :
    ⌊((x - (⌊x⌋ : ℚ)) * 60 - (specMin x : ℚ)) * 60⌋ = specSec x := by
  unfold specMin specSec
  have hrw : ((x - (⌊x⌋ : ℚ)) * 60 - ((⌊60 * x⌋ - 60 * ⌊x⌋ : ℤ) : ℚ)) * 60
      = 3600 * x - ((60 * ⌊60 * x⌋ : ℤ) : ℚ) := by push_cast; ring
  rw [hrw, Int.floor_sub_int]

theorem floor_frac_eq (x : ℚ) :
    ⌊(((x - (⌊x⌋ : ℚ)) * 60 - (specMin x : ℚ)) * 60 - (specSec x : ℚ)) * 10000⌋ =
      specFrac x := by
  unfold specMin specSec specFrac
  have hrw : (((x - (⌊x⌋ : ℚ)) * 60 - ((⌊60 * x⌋ - 60 * ⌊x⌋ : ℤ) : ℚ)) * 60 -
      ((⌊3600 * x⌋ - 60 * ⌊60 * x⌋ : ℤ) : ℚ)) * 10000
      = 10000 * (3600 * x - (⌊3600 * x⌋ : ℚ)) := by push_cast; ring
  rw [hrw]

theorem specFrac_nonneg (x : ℚ) : 0 ≤ specFrac x := by
  unfold specFrac
  have h := sub_floor_nonneg (3600 * x)
  positivity

theorem specFrac_lt (x : ℚ) : specFrac x < 10000 := by
  unfold specFrac
  rw [Int.floor_lt]
  have h : 3600 * x - (⌊3600 * x⌋ : ℚ) < 1 := by
    rw [Int.self_sub_floor]; exact Int.fract_lt_one _
  push_cast
  nlinarith [sub_floor_nonneg (3600 * x)]

/-- Rewrites the three nested code-side truncations of a core into the
spec-side formulas, given a nonnegative input value. -/
theorem ctrunc_chain (x : ℚ) (hx : 0 ≤ x) :
    ctrunc x = ⌊x⌋ ∧
    ctrunc ((x - (⌊x⌋ : ℚ)) * 60) = specMin x ∧
    ctrunc (((x - (⌊x⌋ : ℚ)) * 60 - (specMin x : ℚ)) * 60) = specSec x ∧
    ctrunc ((((x - (⌊x⌋ : ℚ)) * 60 - (specMin x : ℚ)) * 60 - (specSec x : ℚ)) * 10000) =
      specFrac x := by
  obtain ⟨k1, k2, k3, k4⟩ := dms_args_nonneg x hx
  have e1 : ctrunc x = ⌊x⌋ := ctrunc_eq_floor hx
  rw [e1] at k2 k3 k4
  have e2 : ctrunc ((x - (⌊x⌋ : ℚ)) * 60) = specMin x := by
    rw [ctrunc_eq_floor k2, floor_min_eq]
  rw [e2] at k3 k4
  have e3 : ctrunc (((x - (⌊x⌋ : ℚ)) * 60 - (specMin x : ℚ)) * 60) = specSec x := by
    rw [ctrunc_eq_floor k3, floor_sec_eq]
  rw [e3] at k4
  have e4 : ctrunc ((((x - (⌊x⌋ : ℚ)) * 60 - (specMin x : ℚ)) * 60 - (specSec x : ℚ))
      * 10000) = specFrac x := by
    rw [ctrunc_eq_floor k4, floor_frac_eq]
  exact ⟨e1, e2, e3, e4⟩

theorem zodiacCore_min_eq (flags : Nat) (zs : String) (x : ℚ) (hx : 0 ≤ x)
    (hmin : flags &&& BIT_ROUND_MIN ≠ 0) :
    zodiacCore flags zs x = padNum 2 ⌊x⌋ ++ " " ++ zs ++ " " ++ padNum 2 (specMin x) := by
  obtain ⟨e1, e2, e3, e4⟩ := ctrunc_chain x hx
  simp only [zodiacCore, if_pos hmin]
  rw [e1, e2]

theorem zodiacCore_sec_eq (flags : Nat) (zs : String) (x : ℚ) (hx : 0 ≤ x)
    (hmin : flags &&& BIT_ROUND_MIN = 0) (hsec : flags &&& BIT_ROUND_SEC ≠ 0) :
    zodiacCore flags zs x = padNum 2 ⌊x⌋ ++ " " ++ zs ++ " " ++ padNum 2 (specMin x)
      ++ apos ++ padNum 2 (specSec x) := by
  obtain ⟨e1, e2, e3, e4⟩ := ctrunc_chain x hx
  simp only [zodiacCore, if_neg (not_not_intro hmin), if_pos hsec]
  rw [e1, e2, e3]

theorem zodiacCore_frac_eq (flags : Nat) (zs : String) (x : ℚ) (hx : 0 ≤ x)
    (hmin : flags &&& BIT_ROUND_MIN = 0) (hsec : flags &&& BIT_ROUND_SEC = 0) :
    zodiacCore flags zs x = padNum 2 ⌊x⌋ ++ " " ++ zs ++ " " ++ padNum 2 (specMin x)
      ++ apos ++ padNum 2 (specSec x) ++ "." ++ pad0 4 (specFrac x) := by
  obtain ⟨e1, e2, e3, e4⟩ := ctrunc_chain x hx
  simp only [zodiacCore, if_neg (not_not_intro hmin), if_neg (not_not_intro hsec)]
  rw [e1, e2, e3, e4]

theorem plainCore_min_eq (flags : Nat) (sym : String) (x : ℚ) (hx : 0 ≤ x)
    (hmin : flags &&& BIT_ROUND_MIN ≠ 0) :
    plainCore flags sym x = padNum 3 ⌊x⌋ ++ sym ++ padNum 2 (specMin x) ++ apos := by
  obtain ⟨e1, e2, e3, e4⟩ := ctrunc_chain x hx
  simp only [plainCore, if_pos hmin]
  rw [e1, e2]

theorem plainCore_sec_eq (flags : Nat) (sym : String) (x : ℚ) (hx : 0 ≤ x)
    (hmin : flags &&& BIT_ROUND_MIN = 0) (hsec : flags &&& BIT_ROUND_SEC ≠ 0) :
    plainCore flags sym x = padNum 3 ⌊x⌋ ++ sym ++ padNum 2 (specMin x) ++ apos
      ++ padNum 2 (specSec x) := by
  obtain ⟨e1, e2, e3, e4⟩ := ctrunc_chain x hx
  simp only [plainCore, if_neg (not_not_intro hmin), if_pos hsec]
  rw [e1, e2, e3]

theorem plainCore_frac_eq (flags : Nat) (sym : String) (x : ℚ) (hx : 0 ≤ x)
    (hmin : flags &&& BIT_ROUND_MIN = 0) (hsec : flags &&& BIT_ROUND_SEC = 0) :
    plainCore flags sym x = padNum 3 ⌊x⌋ ++ sym ++ padNum 2 (specMin x) ++ apos
      ++ padNum 2 (specSec x) ++ "." ++ pad0 4 (specFrac x) := by
  obtain ⟨e1, e2, e3, e4⟩ := ctrunc_chain x hx
  simp only [plainCore, if_neg (not_not_intro hmin), if_neg (not_not_intro hsec)]
  rw [e1, e2, e3, e4]

/-! ### Helper lemmas: the rounding-mode value of fd_adjusted -/

theorem fd_adjusted_min {flags : Nat} (degrees : ℚ)
    (hmin : flags &&& BIT_ROUND_MIN ≠ 0) (hsec : flags &&& BIT_ROUND_SEC = 0) :
    fd_adjusted degrees flags = swe_degnorm |degrees| + 1 / 120 := by
  simp only [fd_adjusted, if_pos hmin, if_neg (not_not_intro hsec)]

theorem fd_adjusted_sec {flags : Nat} (degrees : ℚ)
    (hmin : flags &&& BIT_ROUND_MIN = 0) (hsec : flags &&& BIT_ROUND_SEC ≠ 0) :
    fd_adjusted degrees flags = swe_degnorm |degrees| + 1 / 7200 := by
  simp only [fd_adjusted, if_neg (not_not_intro hmin), if_pos hsec]

theorem fd_adjusted_none {flags : Nat} (degrees : ℚ)
    (hmin : flags &&& BIT_ROUND_MIN = 0) (hsec : flags &&& BIT_ROUND_SEC = 0) :
    fd_adjusted degrees flags = swe_degnorm |degrees| := by
  simp only [fd_adjusted, if_neg (not_not_intro hmin), if_neg (not_not_intro hsec)]

/-! ### Helper lemmas: digit counts of the rendered numbers -/

theorem natDigitsAux_fuel :
    ∀ fuel1 fuel2 n acc, n < fuel1 → n < fuel2 →
      natDigitsAux fuel1 n acc = natDigitsAux fuel2 n acc := by
  intro fuel1
  induction fuel1 with
  | zero => intro fuel2 n acc h1 _; omega
  | succ fuel1 ih =>
    intro fuel2 n acc h1 h2
    cases fuel2 with
    | zero => omega
    | succ fuel2 =>
      show natDigitsAux (fuel1 + 1) n acc = natDigitsAux (fuel2 + 1) n acc
      unfold natDigitsAux
      by_cases hn : n < 10
      · simp [hn]
      · simp only [hn, if_false]
        have hdiv : n / 10 < n := Nat.div_lt_self (by omega) (by omega)
        exact ih fuel2 (n / 10) _ (by omega) (by omega)

theorem natDigitsAux_length_le :
    ∀ (k : Nat) (n : Nat) (acc : List Char), n < 10 ^ k → 0 < k →
      (natDigitsAux (n + 1) n acc).length ≤ k + acc.length := by
  intro k
  induction k with
  | zero => intro n acc _ h0; omega
  | succ k ih =>
    intro n acc hn _
    unfold natDigitsAux
    by_cases h10 : n < 10
    · simp [h10]; omega
    · simp only [h10, if_false]
      have hdiv : n / 10 < n := Nat.div_lt_self (by omega) (by omega)
      have hk : 0 < k := by
        by_contra hk0
        have : k = 0 := by omega
        subst this
        simp at hn
        omega
      have href : natDigitsAux n (n / 10) (Char.ofNat (48 + n % 10) :: acc) =
          natDigitsAux (n / 10 + 1) (n / 10) (Char.ofNat (48 + n % 10) :: acc) :=
        natDigitsAux_fuel n (n / 10 + 1) (n / 10) _ (by omega) (by omega)
      rw [href]
      have hb : n / 10 < 10 ^ k := by
        rw [Nat.div_lt_iff_lt_mul (by omega)]
        calc n < 10 ^ (k + 1) := hn
        _ = 10 ^ k * 10 := by ring
      have := ih (n / 10) (Char.ofNat (48 + n % 10) :: acc) hb hk
      simp only [List.length_cons] at this
      omega

theorem intDec_length_le {i : ℤ} (k : Nat) (h0 : 0 ≤ i) (hk : 0 < k)
    (hi : i < 10 ^ k) : (intDec i).length ≤ k := by
  unfold intDec
  rw [if_neg (by omega)]
  have hn : i.toNat < 10 ^ k := by
    have h2 : ((10 : ℤ) ^ k) = ((10 ^ k : ℕ) : ℤ) := by push_cast; ring
    omega
  have := natDigitsAux_length_le k i.toNat [] hn hk
  simpa [natDec] using this

theorem pad0_length_four {i : ℤ} (h0 : 0 ≤ i) (h4 : i < 10000) :
    (pad0 4 i).length = 4 := by
  have hlen : (intDec i).length ≤ 4 :=
    intDec_length_le 4 h0 (by omega) (by norm_num; omega)
  simp only [pad0]
  split
  · rename_i hlt
    rw [String.length_append]
    have : (String.mk (List.replicate (4 - (intDec i).length) (Char.ofNat 48))).length =
        4 - (intDec i).length := by
      show (List.replicate (4 - (intDec i).length) (Char.ofNat 48)).length = _
      simp
    omega
  · omega

/-! ### Helper lemmas: the batch loops when no truncation occurs -/

theorem astRangeLoop_no_trunc (E : Engine) (b e : Int) :
    ∀ (l : List Int) (st : AstState),
      (astRangeLoop E b e l st).truncated = false → st.truncated = false →
      (astRangeLoop E b e l st).emitted =
        st.emitted ++ l.map (fun n => (n, astItemErr E n)) ∧
      (astRangeLoop E b e l st).items =
        st.items ++ l.map (fun n => asteroidItem E n (if n = e then " " else ", ")) ∧
      (astRangeLoop E b e l st).calculated =
        st.calculated + l.countP (fun n => !astItemErr E n) ∧
      (astRangeLoop E b e l st).errors =
        st.errors + l.countP (fun n => astItemErr E n) := by
  intro l
  induction l with
  | nil => intro st htr hst; simp [astRangeLoop]
  | cons n rest ih =>
    intro st htr hst
    by_cases hlast : n = e
    · simp only [astRangeLoop, if_pos hlast, List.map_cons, List.countP_cons] at htr ⊢
      split at htr
      · simp at htr
      · rename_i hcond
        rw [if_neg hcond]
        obtain ⟨h1, h2, h3, h4⟩ := ih _ htr (by simpa using hst)
        refine ⟨?_, ?_, ?_, ?_⟩
        · rw [h1]; simp
        · rw [h2]; simp
        · rw [h3]; cases hE : astItemErr E n <;> simp [hE] <;> omega
        · rw [h4]; cases hE : astItemErr E n <;> simp [hE] <;> omega
    · simp only [astRangeLoop, if_neg hlast, List.map_cons, List.countP_cons] at htr ⊢
      split at htr
      · simp at htr
      · rename_i hcond
        rw [if_neg hcond]
        obtain ⟨h1, h2, h3, h4⟩ := ih _ htr (by simpa using hst)
        refine ⟨?_, ?_, ?_, ?_⟩
        · rw [h1]; simp
        · rw [h2]; simp
        · rw [h3]; cases hE : astItemErr E n <;> simp [hE] <;> omega
        · rw [h4]; cases hE : astItemErr E n <;> simp [hE] <;> omega

theorem astListLoop_no_trunc (E : Engine) (b : Int) :
    ∀ (l : List Int) (st : AstState),
      (astListLoop E b l st).truncated = false → st.truncated = false →
      (astListLoop E b l st).emitted =
        st.emitted ++ l.map (fun n => (n, astItemErr E n)) ∧
      (astListLoop E b l st).items = st.items ++ listItemStrings E l ∧
      (astListLoop E b l st).calculated =
        st.calculated + l.countP (fun n => !astItemErr E n) ∧
      (astListLoop E b l st).errors =
        st.errors + l.countP (fun n => astItemErr E n) := by
  intro l
  induction l with
  | nil => intro st htr hst; simp [astListLoop, listItemStrings]
  | cons n rest ih =>
    intro st htr hst
    by_cases hlast : rest = []
    · simp only [astListLoop, listItemStrings, if_pos hlast, List.map_cons,
        List.countP_cons] at htr ⊢
      split at htr
      · simp at htr
      · rename_i hcond
        rw [if_neg hcond]
        obtain ⟨h1, h2, h3, h4⟩ := ih _ htr (by simpa using hst)
        refine ⟨?_, ?_, ?_, ?_⟩
        · rw [h1]; simp
        · rw [h2]; simp
        · rw [h3]; cases hE : astItemErr E n <;> simp [hE] <;> omega
        · rw [h4]; cases hE : astItemErr E n <;> simp [hE] <;> omega
    · simp only [astListLoop, listItemStrings, if_neg hlast, List.map_cons,
        List.countP_cons] at htr ⊢
      split at htr
      · simp at htr
      · rename_i hcond
        rw [if_neg hcond]
        obtain ⟨h1, h2, h3, h4⟩ := ih _ htr (by simpa using hst)
        refine ⟨?_, ?_, ?_, ?_⟩
        · rw [h1]; simp
        · rw [h2]; simp
        · rw [h3]; cases hE : astItemErr E n <;> simp [hE] <;> omega
        · rw [h4]; cases hE : astItemErr E n <;> simp [hE] <;> omega

/-- The capped parsing loop equals filter-then-take on the token list. -/
theorem parseAsteroidLoop_eq :
    ∀ (l : List String) (cnt : Nat), cnt ≤ 1000 →
      parseAsteroidLoop l cnt =
        ((l.map atoi).filter (fun n => decide (0 < n ∧ n ≤ 1000))).take (1000 - cnt) := by
  intro l
  induction l with
  | nil => intro cnt h; simp [parseAsteroidLoop]
  | cons t rest ih =>
    intro cnt h
    unfold parseAsteroidLoop
    by_cases hc : cnt < 1000
    · rw [if_pos hc]
      by_cases hn : 0 < atoi t ∧ atoi t ≤ 1000
      · rw [if_pos hn, ih (cnt + 1) (by omega)]
        simp only [List.map_cons, List.filter_cons, decide_eq_true hn, if_pos]
        have hsub : 1000 - cnt = (1000 - (cnt + 1)) + 1 := by omega
        rw [hsub, List.take_succ_cons]
      · rw [if_neg hn, ih cnt h]
        simp only [List.map_cons, List.filter_cons]
        rw [if_neg (by simpa using hn)]
    · rw [if_neg hc]
      have h1000 : cnt = 1000 := by omega
      subst h1000
      simp

/-! ### Helper lemmas: emitted body indices of the planet and node loops -/

theorem planetsLoop_indices (E : Engine) :
    ∀ (l : List Int) (st : ChartState),
      (planetsLoop E l st).indices =
        st.indices ++ l.filter (fun q => decide (q ≠ SE_EARTH)) := by
  intro l
  induction l with
  | nil => intro st; simp [planetsLoop]
  | cons p rest ih =>
    intro st
    simp only [planetsLoop]
    by_cases hp : p = SE_EARTH
    · rw [if_pos hp, ih]
      simp [hp]
    · rw [if_neg hp, ih]
      simp [hp]

theorem nodesLoop_indices (E : Engine) :
    ∀ (l : List Int) (st : ChartState),
      (nodesLoop E l st).indices =
        st.indices ++ l.filter (fun q => decide (q ≠ SE_EARTH)) := by
  intro l
  induction l with
  | nil => intro st; simp [nodesLoop]
  | cons p rest ih =>
    intro st
    simp only [nodesLoop]
    by_cases hp : p = SE_EARTH
    · rw [if_pos hp, ih]
      simp [hp]
    · rw [if_neg hp, ih]
      simp [hp]

/-! ### Claim theorems -/

/-- Claim C1.  The claim states that format_degrees always selects a
zodiac-sign index in 0..11, wrapping values at the 360-degree boundary to
0 rather than 12.  The code does not guard the boundary: for the input
359.995 with zodiac mode plus round-to-minute, the 0.5/60 addition pushes
the normalized value past 360 and `(int)(degrees / 30.0)` yields 12, one
past the end of the twelve-entry zodiac_signs table (an out-of-bounds
read, here surfaced as `none`). -/
theorem C1_zodiac_index_overflow :
    zodiac_index_of (71999 / 200 : ℚ) (BIT_ZODIAC ||| BIT_ROUND_MIN) = 12 ∧
    zodiac_signs.length = 12 ∧
    format_degrees (71999 / 200 : ℚ) (BIT_ZODIAC ||| BIT_ROUND_MIN) = none ∧
    zodiac_index_of (2591999 / 7200 : ℚ) (BIT_ZODIAC ||| BIT_ROUND_SEC) = 12 := by
  decide

/-- Claim C2.  The claim states that every string embedded in a JSON
document is escape-sanitized.  escape_json_string itself implements the
stated policy (first conjunct), but two emission sites bypass it: the
`requested_list` echo of getSpecificAsteroids prints the caller string
raw, so a double quote in the asteroid list yields an invalid document
(second conjunct), and the failure branch of getSinglePlanetNodes prints
the engine error message raw, so a double quote in it also yields an
invalid document (third conjunct).  The same inputs pass through cleanly
when escaped (fourth conjunct). -/
theorem C2_unescaped_emission_sites :
    escape_json_string "a\"b\\c\nd" 100 = "a\\\"b\\\\c\\nd" ∧
    isValidJson (getSpecificAsteroids baseEngine 2023 12 25 12 0 0 "\"" 100000).out = false ∧
    isValidJson (getSinglePlanetNodes nodesFailEngine 2 0 0 1000) = false ∧
    escape_json_string (String.mk [Char.ofNat 1, Char.ofNat 31]) 100 = "  " := by
  decide

/-- Claim C3.  The claim states that after the buffer-margin check fires
the assembler appends one truncation-warning object, closes the document,
and the partial document is still valid JSON.  When the margin check
fires on a non-final item this holds (second half: the comma-space `, `
separator precedes the warning object).  But when it fires on the final
loop item, the item was emitted with the ` ` separator and the warning
object follows it with no comma, so the document is not valid JSON
(first half). -/
theorem C3_truncation_warning_validity :
    (getAsteroids baseEngine 2023 12 25 12 0 0 1 1 500).truncated = true ∧
    (getAsteroids baseEngine 2023 12 25 12 0 0 1 1 500).out.length <
      (500 : Int) ∧
    isValidJson (getAsteroids baseEngine 2023 12 25 12 0 0 1 1 500).out = false ∧
    (getAsteroids baseEngine 2023 12 25 12 0 0 1 2 500).truncated = true ∧
    (getAsteroids baseEngine 2023 12 25 12 0 0 1 2 500).emitted = [(1, false)] ∧
    isValidJson (getAsteroids baseEngine 2023 12 25 12 0 0 1 2 500).out = true := by
  decide

/-- Claim C4.  In both batch variants a per-item engine failure never
aborts the batch: provided the buffer-margin break does not fire, every
requested item is emitted exactly once in order (with the failing items
carrying their error flag, and the item strings given by asteroidItem,
which embeds the engine message on failure and the numeric fields on
success), and the summary tallies are calculated = number of successful
items, errors = number of failing items, total_requested = end - start +
1 for the range variant and the parsed list length for the explicit-list
variant. -/
theorem C4_partial_failure_isolation (E : Engine)
    (y mo d h mi sec s0 e0 b : Int) (lst : String) (b2 : Int)
    (h1 : (getAsteroids E y mo d h mi sec s0 e0 b).truncated = false)
    (h2 : (getSpecificAsteroids E y mo d h mi sec lst b2).truncated = false) :
    ((getAsteroids E y mo d h mi sec s0 e0 b).emitted =
        (intRange (getAsteroids E y mo d h mi sec s0 e0 b).startNum
          (getAsteroids E y mo d h mi sec s0 e0 b).endNum).map
          (fun n => (n, astItemErr E n)) ∧
      (getAsteroids E y mo d h mi sec s0 e0 b).itemsOut =
        (intRange (getAsteroids E y mo d h mi sec s0 e0 b).startNum
          (getAsteroids E y mo d h mi sec s0 e0 b).endNum).map
          (fun n => asteroidItem E n
            (if n = (getAsteroids E y mo d h mi sec s0 e0 b).endNum then " " else ", ")) ∧
      (getAsteroids E y mo d h mi sec s0 e0 b).calculated =
        (intRange (getAsteroids E y mo d h mi sec s0 e0 b).startNum
          (getAsteroids E y mo d h mi sec s0 e0 b).endNum).countP
          (fun n => !astItemErr E n) ∧
      (getAsteroids E y mo d h mi sec s0 e0 b).errors =
        (intRange (getAsteroids E y mo d h mi sec s0 e0 b).startNum
          (getAsteroids E y mo d h mi sec s0 e0 b).endNum).countP
          (fun n => astItemErr E n) ∧
      (getAsteroids E y mo d h mi sec s0 e0 b).totalRequested =
        (getAsteroids E y mo d h mi sec s0 e0 b).endNum -
          (getAsteroids E y mo d h mi sec s0 e0 b).startNum + 1) ∧
    ((getSpecificAsteroids E y mo d h mi sec lst b2).emitted =
        (getSpecificAsteroids E y mo d h mi sec lst b2).parsed.map
          (fun n => (n, astItemErr E n)) ∧
      (getSpecificAsteroids E y mo d h mi sec lst b2).itemsOut =
        listItemStrings E (getSpecificAsteroids E y mo d h mi sec lst b2).parsed ∧
      (getSpecificAsteroids E y mo d h mi sec lst b2).calculated =
        (getSpecificAsteroids E y mo d h mi sec lst b2).parsed.countP
          (fun n => !astItemErr E n) ∧
      (getSpecificAsteroids E y mo d h mi sec lst b2).errors =
        (getSpecificAsteroids E y mo d h mi sec lst b2).parsed.countP
          (fun n => astItemErr E n) ∧
      (getSpecificAsteroids E y mo d h mi sec lst b2).totalRequested =
        (getSpecificAsteroids E y mo d h mi sec lst b2).parsed.length) := by
  constructor
  · simp only [getAsteroids] at h1 ⊢
    obtain ⟨g1, g2, g3, g4⟩ := astRangeLoop_no_trunc E b _ _ _ h1 rfl
    exact ⟨by rw [g1]; rfl, by rw [g2]; rfl, by rw [g3]; exact Nat.zero_add _,
      by rw [g4]; exact Nat.zero_add _, by trivial⟩
  · simp only [getSpecificAsteroids] at h2 ⊢
    obtain ⟨g1, g2, g3, g4⟩ := astListLoop_no_trunc E b2 _ _ h2 rfl
    exact ⟨by rw [g1]; rfl, by rw [g2]; rfl, by rw [g3]; exact Nat.zero_add _,
      by rw [g4]; exact Nat.zero_add _, by trivial⟩

/-- Claim C4 (witness): a 3-item range batch and a 3-item list batch in
which exactly asteroid 2 fails yield error flags false/true/false and a
summary of calculated=2, errors=1, total_requested=3. -/
theorem C4_partial_failure_isolation_witness :
    (getAsteroids midFailEngine 2023 12 25 12 0 0 1 3 100000).truncated = false ∧
    (getSpecificAsteroids midFailEngine 2023 12 25 12 0 0 "1,2,3" 100000).truncated = false ∧
    (getAsteroids midFailEngine 2023 12 25 12 0 0 1 3 100000).emitted =
      [(1, false), (2, true), (3, false)] ∧
    (getAsteroids midFailEngine 2023 12 25 12 0 0 1 3 100000).calculated = 2 ∧
    (getAsteroids midFailEngine 2023 12 25 12 0 0 1 3 100000).errors = 1 ∧
    (getAsteroids midFailEngine 2023 12 25 12 0 0 1 3 100000).totalRequested = 3 ∧
    (getSpecificAsteroids midFailEngine 2023 12 25 12 0 0 "1,2,3" 100000).emitted =
      [(1, false), (2, true), (3, false)] ∧
    (getSpecificAsteroids midFailEngine 2023 12 25 12 0 0 "1,2,3" 100000).calculated = 2 ∧
    (getSpecificAsteroids midFailEngine 2023 12 25 12 0 0 "1,2,3" 100000).errors = 1 ∧
    (getSpecificAsteroids midFailEngine 2023 12 25 12 0 0 "1,2,3" 100000).totalRequested = 3 := by
  have h := C4_partial_failure_isolation midFailEngine 2023 12 25 12 0 0 1 3 100000
    "1,2,3" 100000 (by decide) (by decide)
  refine ⟨by decide, by decide, ?_, ?_, ?_, ?_, ?_, ?_, ?_, ?_⟩
  · rw [h.1.1]; decide
  · rw [h.1.2.2.1]; decide
  · rw [h.1.2.2.2.1]; decide
  · rw [h.1.2.2.2.2]; decide
  · rw [h.2.1]; decide
  · rw [h.2.2.2.1]; decide
  · rw [h.2.2.2.2.1]; decide
  · rw [h.2.2.2.2.2]; decide

/-- Claim C5 (counterexample).  The claim states that for every negative
input the output contains a literal minus sign right before its first
digit.  For -15 degrees in zodiac mode the integer degree field fills its
full %2d width, the first digit sits at position 0, and the guard
`first_digit > result` suppresses the sign: the output contains no minus
sign at all. -/
theorem C5_counterexample :
    (-15 : ℚ) < 0 ∧
    format_degrees (-15 : ℚ) BIT_ZODIAC = some ("15 ar  0" ++ apos ++ " 0.0000") ∧
    ∀ c ∈ ("15 ar  0" ++ apos ++ " 0.0000").data, c ≠ Char.ofNat 45 := by
  exact ⟨by norm_num, by decide, by decide⟩

/-- Claim C5 (amended).  format_degrees strips the sign before
formatting; for a non-negative input the output never contains a minus
sign, and for a negative input a minus sign is written over the character
right before the first digit exactly when that first digit is not at
position 0 (i.e. when the leading field is padded); when the output
starts with a digit (a degree value filling its field width), no minus
sign appears. -/
theorem C5_sign_placement (degrees : ℚ) (format_flags : Nat) (s : String)
    (h : format_degrees degrees format_flags = some s) :
    (0 ≤ degrees → ∀ c ∈ s.data, c ≠ Char.ofNat 45) ∧
    (degrees < 0 → ∀ j, firstDigitIdx s.data = some (j + 1) →
      s.data.get? j = some (Char.ofNat 45)) ∧
    (degrees < 0 → firstDigitIdx s.data = some 0 → ∀ c ∈ s.data, c ≠ Char.ofNat 45) := by
  have hsig_pos : 0 ≤ degrees → (0 : ℤ) ≤ (if degrees < 0 then (-1 : ℤ) else 1) := by
    intro h0; rw [if_neg (not_lt.mpr h0)]; norm_num
  have hsig_neg : degrees < 0 → (if degrees < 0 then (-1 : ℤ) else 1) < 0 := by
    intro h0; rw [if_pos h0]; norm_num
  have hd0 : 0 ≤ fd_adjusted degrees format_flags := fd_adjusted_nonneg degrees format_flags
  simp only [format_degrees] at h
  split at h
  · -- zodiac branch
    split at h
    · rename_i hzi
      rw [Option.some.injEq] at h
      subst h
      obtain ⟨hA, hB, hC⟩ := applyNegSign_props _ _
        (zodiacCore_noMinus format_flags _ _ (fmod30_nonneg _ hd0)
          (zodiac_get_noMinus ⟨(ctrunc (fd_adjusted degrees format_flags / 30)).toNat, hzi.2⟩))
      exact ⟨fun h0 => hA (hsig_pos h0), fun h0 => hB (hsig_neg h0), fun _ => hC⟩
    · cases h
  · -- plain branch
    rw [Option.some.injEq] at h
    subst h
    obtain ⟨hA, hB, hC⟩ := applyNegSign_props _ _
      (plainCore_noMinus format_flags _ _ hd0 (noMinus_symbol _))
    exact ⟨fun h0 => hA (hsig_pos h0), fun h0 => hB (hsig_neg h0), fun _ => hC⟩

/-- Claim C5 (witness): for -5 degrees in zodiac mode the first digit is
at position 1 and the preceding pad space is overwritten with the minus
sign. -/
theorem C5_sign_placement_witness :
    (-5 : ℚ) < 0 ∧
    format_degrees (-5 : ℚ) BIT_ZODIAC = some ("-5 ar  0" ++ apos ++ " 0.0000") ∧
    ("-5 ar  0" ++ apos ++ " 0.0000").data.get? 0 = some (Char.ofNat 45) := by
  refine ⟨by norm_num, by decide, ?_⟩
  exact (C5_sign_placement (-5) BIT_ZODIAC ("-5 ar  0" ++ apos ++ " 0.0000")
    (by decide)).2.1 (by norm_num) 0 (by decide)

/-- Claim C6.  format_degrees implements the spec rounding policy: with
the round-to-minute flag it adds 0.5/60 = 1/120 before truncating and the
rendering stops at the minute field (no seconds, no fraction); with the
round-to-second flag it adds 0.5/3600 = 1/7200 and the rendering ends at
whole seconds; with neither flag a fractional-second suffix of exactly
four decimal digits is appended.  specMin, specSec and specFrac are the
spec-side formulas (truncated total minutes / seconds / fraction scaled
by 10000), and zRem the remainder within the selected zodiac sign.  The
three clauses cover the three modes of the policy; a flag word combining
both rounding bits selects the minute branch in the source and is outside
the policy. -/
theorem C6_rounding_policy (degrees : ℚ) (format_flags : Nat) (s : String)
    (h : format_degrees degrees format_flags = some s) :
    (format_flags &&& BIT_ROUND_MIN ≠ 0 → format_flags &&& BIT_ROUND_SEC = 0 →
      (format_flags &&& BIT_ZODIAC ≠ 0 →
        s = String.mk (applyNegSign (if degrees < 0 then -1 else 1)
          (padNum 2 ⌊zRem (swe_degnorm |degrees| + 1 / 120)⌋ ++ " " ++
           zodiac_signs.getD (⌊(swe_degnorm |degrees| + 1 / 120) / 30⌋).toNat "" ++ " " ++
           padNum 2 (specMin (zRem (swe_degnorm |degrees| + 1 / 120)))).data)) ∧
      (format_flags &&& BIT_ZODIAC = 0 →
        s = String.mk (applyNegSign (if degrees < 0 then -1 else 1)
          (padNum 3 ⌊swe_degnorm |degrees| + 1 / 120⌋ ++
           (if format_flags &&& SEFLG_EQUATORIAL ≠ 0 then "h" else "d") ++
           padNum 2 (specMin (swe_degnorm |degrees| + 1 / 120)) ++ apos).data))) ∧
    (format_flags &&& BIT_ROUND_MIN = 0 → format_flags &&& BIT_ROUND_SEC ≠ 0 →
      (format_flags &&& BIT_ZODIAC ≠ 0 →
        s = String.mk (applyNegSign (if degrees < 0 then -1 else 1)
          (padNum 2 ⌊zRem (swe_degnorm |degrees| + 1 / 7200)⌋ ++ " " ++
           zodiac_signs.getD (⌊(swe_degnorm |degrees| + 1 / 7200) / 30⌋).toNat "" ++ " " ++
           padNum 2 (specMin (zRem (swe_degnorm |degrees| + 1 / 7200))) ++ apos ++
           padNum 2 (specSec (zRem (swe_degnorm |degrees| + 1 / 7200)))).data)) ∧
      (format_flags &&& BIT_ZODIAC = 0 →
        s = String.mk (applyNegSign (if degrees < 0 then -1 else 1)
          (padNum 3 ⌊swe_degnorm |degrees| + 1 / 7200⌋ ++
           (if format_flags &&& SEFLG_EQUATORIAL ≠ 0 then "h" else "d") ++
           padNum 2 (specMin (swe_degnorm |degrees| + 1 / 7200)) ++ apos ++
           padNum 2 (specSec (swe_degnorm |degrees| + 1 / 7200))).data))) ∧
    (format_flags &&& BIT_ROUND_MIN = 0 → format_flags &&& BIT_ROUND_SEC = 0 →
      (format_flags &&& BIT_ZODIAC ≠ 0 →
        s = String.mk (applyNegSign (if degrees < 0 then -1 else 1)
          (padNum 2 ⌊zRem (swe_degnorm |degrees|)⌋ ++ " " ++
           zodiac_signs.getD (⌊swe_degnorm |degrees| / 30⌋).toNat "" ++ " " ++
           padNum 2 (specMin (zRem (swe_degnorm |degrees|))) ++ apos ++
           padNum 2 (specSec (zRem (swe_degnorm |degrees|))) ++ "." ++
           pad0 4 (specFrac (zRem (swe_degnorm |degrees|)))).data)) ∧
      (format_flags &&& BIT_ZODIAC = 0 →
        s = String.mk (applyNegSign (if degrees < 0 then -1 else 1)
          (padNum 3 ⌊swe_degnorm |degrees|⌋ ++
           (if format_flags &&& SEFLG_EQUATORIAL ≠ 0 then "h" else "d") ++
           padNum 2 (specMin (swe_degnorm |degrees|)) ++ apos ++
           padNum 2 (specSec (swe_degnorm |degrees|)) ++ "." ++
           pad0 4 (specFrac (swe_degnorm |degrees|))).data)) ∧
      (pad0 4 (specFrac (zRem (swe_degnorm |degrees|)))).length = 4 ∧
      (pad0 4 (specFrac (swe_degnorm |degrees|))).length = 4 ∧
      (∀ c ∈ (pad0 4 (specFrac (zRem (swe_degnorm |degrees|)))).data, c.isDigit) ∧
      (∀ c ∈ (pad0 4 (specFrac (swe_degnorm |degrees|))).data, c.isDigit)) := by
  have hN : 0 ≤ swe_degnorm |degrees| := swe_degnorm_nonneg _
  refine ⟨?_, ?_, ?_⟩
  · -- round-to-minute mode
    intro hm hs
    have hfd := fd_adjusted_min degrees hm hs
    have hx : 0 ≤ swe_degnorm |degrees| + 1 / 120 := by linarith
    have hdiv : 0 ≤ (swe_degnorm |degrees| + 1 / 120) / 30 := by positivity
    have hrem : 0 ≤ swe_degnorm |degrees| + 1 / 120 -
        30 * (⌊(swe_degnorm |degrees| + 1 / 120) / 30⌋ : ℚ) := by
      have := fmod30_nonneg _ hx
      rwa [ctrunc_eq_floor hdiv] at this
    simp only [format_degrees] at h
    simp only [hfd, ctrunc_eq_floor hdiv] at h
    split at h
    · split at h
      · rename_i hzod hzi
        rw [Option.some.injEq] at h
        subst h
        refine ⟨fun _ => ?_, fun hz0 => absurd hzod (by simp [hz0])⟩
        rw [zodiacCore_min_eq _ _ _ hrem hm, List.getD_eq_get _ _ hzi.2]
        simp only [zRem]
      · cases h
    · rename_i hzod0
      rw [Option.some.injEq] at h
      subst h
      refine ⟨fun hz => absurd hz hzod0, fun _ => ?_⟩
      rw [plainCore_min_eq _ _ _ hx hm]
  · -- round-to-second mode
    intro hm hs
    have hfd := fd_adjusted_sec degrees hm hs
    have hx : 0 ≤ swe_degnorm |degrees| + 1 / 7200 := by linarith
    have hdiv : 0 ≤ (swe_degnorm |degrees| + 1 / 7200) / 30 := by positivity
    have hrem : 0 ≤ swe_degnorm |degrees| + 1 / 7200 -
        30 * (⌊(swe_degnorm |degrees| + 1 / 7200) / 30⌋ : ℚ) := by
      have := fmod30_nonneg _ hx
      rwa [ctrunc_eq_floor hdiv] at this
    simp only [format_degrees] at h
    simp only [hfd, ctrunc_eq_floor hdiv] at h
    split at h
    · split at h
      · rename_i hzod hzi
        rw [Option.some.injEq] at h
        subst h
        refine ⟨fun _ => ?_, fun hz0 => absurd hzod (by simp [hz0])⟩
        rw [zodiacCore_sec_eq _ _ _ hrem hm hs, List.getD_eq_get _ _ hzi.2]
        simp only [zRem]
      · cases h
    · rename_i hzod0
      rw [Option.some.injEq] at h
      subst h
      refine ⟨fun hz => absurd hz hzod0, fun _ => ?_⟩
      rw [plainCore_sec_eq _ _ _ hx hm hs]
  · -- no rounding flag
    intro hm hs
    have hfd := fd_adjusted_none degrees hm hs
    have hdiv : 0 ≤ swe_degnorm |degrees| / 30 := by positivity
    have hrem : 0 ≤ swe_degnorm |degrees| -
        30 * (⌊swe_degnorm |degrees| / 30⌋ : ℚ) := by
      have := fmod30_nonneg _ hN
      rwa [ctrunc_eq_floor hdiv] at this
    have hd1 : (pad0 4 (specFrac (zRem (swe_degnorm |degrees|)))).length = 4 :=
      pad0_length_four (specFrac_nonneg _) (specFrac_lt _)
    have hd2 : (pad0 4 (specFrac (swe_degnorm |degrees|))).length = 4 :=
      pad0_length_four (specFrac_nonneg _) (specFrac_lt _)
    have hd3 := fun c hc => pad0_chars 4 _ (specFrac_nonneg (zRem (swe_degnorm |degrees|))) c hc
    have hd4 := fun c hc => pad0_chars 4 _ (specFrac_nonneg (swe_degnorm |degrees|)) c hc
    simp only [format_degrees] at h
    simp only [hfd, ctrunc_eq_floor hdiv] at h
    split at h
    · split at h
      · rename_i hzod hzi
        rw [Option.some.injEq] at h
        subst h
        refine ⟨fun _ => ?_, fun hz0 => absurd hzod (by simp [hz0]), hd1, hd2, hd3, hd4⟩
        rw [zodiacCore_frac_eq _ _ _ hrem hm hs, List.getD_eq_get _ _ hzi.2]
        simp only [zRem]
      · cases h
    · rename_i hzod0
      rw [Option.some.injEq] at h
      subst h
      refine ⟨fun hz => absurd hz hzod0, fun _ => ?_, hd1, hd2, hd3, hd4⟩
      rw [plainCore_frac_eq _ _ _ hN hm hs]

/-- Claim C6 (witness): 100 degrees in plain round-to-minute mode renders
as 100 degrees 0 minutes with no seconds field, with the minute value
given by the spec formula. -/
theorem C6_rounding_policy_witness :
    format_degrees (100 : ℚ) BIT_ROUND_MIN = some ("100d 0" ++ apos) ∧
    "100d 0" ++ apos = String.mk (applyNegSign (if (100 : ℚ) < 0 then -1 else 1)
      (padNum 3 ⌊swe_degnorm |(100 : ℚ)| + 1 / 120⌋ ++
       (if BIT_ROUND_MIN &&& SEFLG_EQUATORIAL ≠ 0 then "h" else "d") ++
       padNum 2 (specMin (swe_degnorm |(100 : ℚ)| + 1 / 120)) ++ apos).data) := by
  refine ⟨by decide, ?_⟩
  exact ((C6_rounding_policy 100 BIT_ROUND_MIN ("100d 0" ++ apos) (by decide)).1
    (by decide) (by decide)).2 (by decide)

/-- Claim C7.  convert_coordinates returns degrees + minutes/60 +
seconds/3600, negated exactly when the hemisphere letter is W or S, and
in particular maps (51, 30, 0, N) to 51.5 and (0, 5, 30, W) to
-11/120 = -0.091666... . -/
theorem C7_convert_coordinates (deg mn sec : ℤ) (dir : Char) :
    convert_coordinates deg mn sec dir =
      (if dir = 'W' ∨ dir = 'S' then -((deg : ℚ) + (mn : ℚ) / 60 + (sec : ℚ) / 3600)
       else (deg : ℚ) + (mn : ℚ) / 60 + (sec : ℚ) / 3600) ∧
    convert_coordinates 51 30 0 'N' = 103 / 2 ∧
    convert_coordinates 0 5 30 'W' = -(11 / 120) := by
  exact ⟨rfl, by decide, by decide⟩

/-- Claim C8.  The planets array of the full-chart and planets-only
builders iterates body indices SE_SUN..SE_NPLANETS-1 and the nodes array
of the all-planets nodes builder iterates SE_SUN..SE_PLUTO; in each, no
Earth record is emitted, and every other index of the iterated range
appears exactly once, in ascending order, for every calendar moment and
engine outcome. -/
theorem C8_earth_excluded (E : Engine)
    (y mo d h mi sec lonG lonM lonS latG latM latS : Int)
    (lonEW latNS iH : Char) (b m b2 : Int) :
    ((astro E y mo d h mi sec lonG lonM lonS lonEW latG latM latS latNS iH b).bodyIndices =
      (intRange SE_SUN (SE_NPLANETS - 1)).filter (fun q => decide (q ≠ SE_EARTH))) ∧
    SE_EARTH ∉
      (astro E y mo d h mi sec lonG lonM lonS lonEW latG latM latS latNS iH b).bodyIndices ∧
    List.Sorted (· < ·)
      (astro E y mo d h mi sec lonG lonM lonS lonEW latG latM latS latNS iH b).bodyIndices ∧
    (∀ p ∈ intRange SE_SUN (SE_NPLANETS - 1), p ≠ SE_EARTH →
      (astro E y mo d h mi sec lonG lonM lonS lonEW latG latM latS latNS
        iH b).bodyIndices.count p = 1) ∧
    ((getPlanets E y mo d h mi sec).bodyIndices =
      (astro E y mo d h mi sec lonG lonM lonS lonEW latG latM latS latNS iH b).bodyIndices) ∧
    ((getPlanetaryNodes E y mo d h mi sec m b2).bodyIndices =
      (intRange SE_SUN SE_PLUTO).filter (fun q => decide (q ≠ SE_EARTH))) ∧
    SE_EARTH ∉ (getPlanetaryNodes E y mo d h mi sec m b2).bodyIndices ∧
    List.Sorted (· < ·) (getPlanetaryNodes E y mo d h mi sec m b2).bodyIndices ∧
    (∀ p ∈ intRange SE_SUN SE_PLUTO, p ≠ SE_EARTH →
      (getPlanetaryNodes E y mo d h mi sec m b2).bodyIndices.count p = 1) := by
  have hA : (astro E y mo d h mi sec lonG lonM lonS lonEW latG latM latS latNS
      iH b).bodyIndices =
      (intRange SE_SUN (SE_NPLANETS - 1)).filter (fun q => decide (q ≠ SE_EARTH)) := by
    simp only [astro]
    rw [planetsLoop_indices]
    rfl
  have hP : (getPlanets E y mo d h mi sec).bodyIndices =
      (intRange SE_SUN (SE_NPLANETS - 1)).filter (fun q => decide (q ≠ SE_EARTH)) := by
    simp only [getPlanets]
    rw [planetsLoop_indices]
    rfl
  have hN : (getPlanetaryNodes E y mo d h mi sec m b2).bodyIndices =
      (intRange SE_SUN SE_PLUTO).filter (fun q => decide (q ≠ SE_EARTH)) := by
    simp only [getPlanetaryNodes]
    rw [nodesLoop_indices]
    rfl
  refine ⟨hA, ?_, ?_, ?_, hP.trans hA.symm, hN, ?_, ?_, ?_⟩
  · rw [hA]; decide
  · rw [hA]; decide
  · rw [hA]; decide
  · rw [hN]; decide
  · rw [hN]; decide
  · rw [hN]; decide

/-- Claim C9.  getAsteroids normalizes the requested range exactly as the
spec describes (raise start to 1, lower end to 1000, swap when inverted:
normalizeRangeSpec), and both the echoed asteroid_range object in the
header and the summary total_requested = end - start + 1 are printed from
the normalized bounds. -/
theorem C9_range_normalization (E : Engine) (y mo d h mi sec s0 e0 b : Int) :
    ((getAsteroids E y mo d h mi sec s0 e0 b).startNum,
      (getAsteroids E y mo d h mi sec s0 e0 b).endNum) = normalizeRangeSpec s0 e0 ∧
    (getAsteroids E y mo d h mi sec s0 e0 b).totalRequested =
      (getAsteroids E y mo d h mi sec s0 e0 b).endNum -
        (getAsteroids E y mo d h mi sec s0 e0 b).startNum + 1 ∧
    (getAsteroids E y mo d h mi sec s0 e0 b).out =
      (getAsteroids E y mo d h mi sec s0 e0 b).headerOut ++
        strJoin (getAsteroids E y mo d h mi sec s0 e0 b).itemsOut ++ "], " ++
        (getAsteroids E y mo d h mi sec s0 e0 b).summaryOut ∧
    (getAsteroids E y mo d h mi sec s0 e0 b).headerOut =
      "\x7b " ++ initDatePart y mo d h mi sec "jd_ut" E.julday ++
      "\"asteroid_range\": \x7b \"start\": " ++
      intDec (getAsteroids E y mo d h mi sec s0 e0 b).startNum ++ ", \"end\": " ++
      intDec (getAsteroids E y mo d h mi sec s0 e0 b).endNum ++ " \x7d, " ++
      "\"asteroids\": [ " ∧
    (getAsteroids E y mo d h mi sec s0 e0 b).summaryOut =
      summaryPart (getAsteroids E y mo d h mi sec s0 e0 b).calculated
        (getAsteroids E y mo d h mi sec s0 e0 b).errors
        (getAsteroids E y mo d h mi sec s0 e0 b).totalRequested := by
  refine ⟨?_, rfl, rfl, rfl, rfl⟩
  simp only [getAsteroids, normalizeRangeSpec]
  split_ifs <;> simp_all [Prod.mk.injEq] <;> omega

/-- Claim C10.  getSpecificAsteroids parses its comma list by atoi on
each strtok token, silently discarding values outside 1..1000 (non-digit
tokens convert to 0 and are discarded), keeping at most the first 1000
accepted entries (parseListSpec); the summary total_requested is the
accepted count, while the requested_list echo reproduces the caller
string verbatim inside the header. -/
theorem C10_list_parsing (E : Engine) (y mo d h mi sec : Int)
    (asteroid_list : String) (b : Int) :
    (getSpecificAsteroids E y mo d h mi sec asteroid_list b).parsed =
      parseListSpec asteroid_list ∧
    (getSpecificAsteroids E y mo d h mi sec asteroid_list b).totalRequested =
      (getSpecificAsteroids E y mo d h mi sec asteroid_list b).parsed.length ∧
    (getSpecificAsteroids E y mo d h mi sec asteroid_list b).out =
      (getSpecificAsteroids E y mo d h mi sec asteroid_list b).headerOut ++
        strJoin (getSpecificAsteroids E y mo d h mi sec asteroid_list b).itemsOut ++
        "], " ++ (getSpecificAsteroids E y mo d h mi sec asteroid_list b).summaryOut ∧
    (getSpecificAsteroids E y mo d h mi sec asteroid_list b).headerOut =
      "\x7b " ++ initDatePart y mo d h mi sec "jd_ut" E.julday ++
      "\"requested_list\": \"" ++ asteroid_list ++ "\", " ++ "\"asteroids\": [ " ∧
    (getSpecificAsteroids E y mo d h mi sec asteroid_list b).summaryOut =
      summaryPart (getSpecificAsteroids E y mo d h mi sec asteroid_list b).calculated
        (getSpecificAsteroids E y mo d h mi sec asteroid_list b).errors
        ((getSpecificAsteroids E y mo d h mi sec asteroid_list b).totalRequested : Int) ∧
    atoi "abc" = 0 := by
  refine ⟨?_, rfl, rfl, rfl, rfl, by decide⟩
  show parseAsteroidLoop (strtokTokens asteroid_list) 0 = parseListSpec asteroid_list
  unfold parseListSpec
  have : (1000 : Nat) = 1000 - 0 := rfl
  rw [this]
  exact parseAsteroidLoop_eq (strtokTokens asteroid_list) 0 (by omega)

end Astro
